import Mathlib

/-!
Verification of the Amazon_Crawl repository's core: the snapshot diff
engine (`crawler/change_detector.py`) and the optimized batch importer
(`utils/batch_import_optimized.py`).  Python runtime values are embedded
as the inductive `PyVal`; numeric Python values (int/float) are modelled
as ℤ/ℚ.  Each Python method is translated to an executable Lean
definition keeping the source's control flow and names.
-/

/-- Embedding of the Python runtime values the crawler passes around:
`None`, `bool`, `int`, `float` (as an exact rational), `str`, `list`
and `dict` (an insertion-ordered association list, as CPython). -/
inductive PyVal where
  | none
  | bool (b : Bool)
  | int (n : ℤ)
  | float (q : ℚ)
  | str (s : String)
  | list (xs : List PyVal)
  | dict (kvs : List (String × PyVal))

/-- Python truthiness (`not value`): `None`, `False`, `0`, `0.0`, `""`,
`[]` and `{}` are falsy. -/
def pyFalsy : PyVal → Bool
  | .none => true
  | .bool b => !b
  | .int n => decide (n = 0)
  | .float q => decide (q = 0)
  | .str s => s.isEmpty
  | .list xs => xs.isEmpty
  | .dict kvs => kvs.isEmpty

/-- Decimal digits accumulated into a natural number. -/
def digitsToNat (cs : List Char) : Nat :=
  cs.foldl (fun acc c => 10 * acc + (c.toNat - '0'.toNat)) 0

def isDigitChar (c : Char) : Bool := '0' ≤ c && c ≤ '9'

/-- Python's `str.strip()` whitespace set (space, tab, newline,
carriage return, vertical tab, form feed). -/
def isPySpace (c : Char) : Bool :=
  c = ' ' || c = '\t' || c = '\n' || c = '\r' || c = '\x0b' || c = '\x0c'

/-- `str.strip()` on a character list. -/
def trimChars (cs : List Char) : List Char :=
  ((cs.dropWhile isPySpace).reverse.dropWhile isPySpace).reverse

/-- Unsigned decimal literal `digits [. digits]` as a rational; `10.`,
`.5` are accepted, the empty string and a lone `.` are not (the subset
of Python's `float` grammar the crawler's data exercises — exponents,
`inf`/`nan` and underscores are not modelled). -/
def parseUnsignedFloat (cs : List Char) : Option ℚ :=
  let intPart := cs.takeWhile isDigitChar
  let rest := cs.dropWhile isDigitChar
  match rest with
  | [] => if intPart.isEmpty then Option.none else some (digitsToNat intPart : ℚ)
  | '.' :: frac =>
      if frac.all isDigitChar && !(intPart.isEmpty && frac.isEmpty) then
        some ((digitsToNat intPart : ℚ) + (digitsToNat frac : ℚ) / ((10 : ℚ) ^ frac.length))
      else Option.none
  | _ => Option.none

/-- Optional sign before the unsigned literal. -/
def parseFloatChars : List Char → Option ℚ
  | '-' :: cs => (parseUnsignedFloat cs).map (fun q => -q)
  | '+' :: cs => parseUnsignedFloat cs
  | cs => parseUnsignedFloat cs

/-- Python `float(s)` on a string: surrounding whitespace is stripped,
then an optional sign and a decimal literal. -/
def parseFloatStr (s : String) : Option ℚ :=
  parseFloatChars (trimChars s.data)

/-- Python `int(s)` on a string: stripped, optional sign, digits only
(`int("3.7")` raises). -/
def parseIntStr (s : String) : Option ℤ :=
  let core : List Char → Option ℤ := fun cs =>
    if cs.isEmpty || !cs.all isDigitChar then Option.none
    else some (digitsToNat cs : ℤ)
  match trimChars s.data with
  | '-' :: cs => (core cs).map (fun n => -n)
  | '+' :: cs => core cs
  | cs => core cs

/-- Python `int(float)` truncates toward zero. -/
def pyTrunc (q : ℚ) : ℤ := if 0 ≤ q then ⌊q⌋ else ⌈q⌉

/-- Python `float(value)`; `Option.none` models the `TypeError` /
`ValueError` the call raises on non-numeric input. -/
def pyFloat : PyVal → Option ℚ
  | .bool b => some (if b then 1 else 0)
  | .int n => some (n : ℚ)
  | .float q => some q
  | .str s => parseFloatStr s
  | _ => Option.none

/-- Python `int(value)` with the same error convention. -/
def pyInt : PyVal → Option ℤ
  | .bool b => some (if b then 1 else 0)
  | .int n => some n
  | .float q => some (pyTrunc q)
  | .str s => parseIntStr s
  | _ => Option.none

/-- Decimal rendering of a natural number (units of `Nat.toDigits`). -/
def natToDecimal (n : Nat) : String := Nat.toDigits 10 n |>.asString

def intToDecimal (n : ℤ) : String :=
  if n < 0 then "-" ++ natToDecimal n.natAbs else natToDecimal n.natAbs

mutual

/-- Python `str(value)`.  Floats are rendered from the exact rational
(an approximation of CPython's shortest-repr; the monitored data only
renders ints and strings this way).  Containers use `repr` of their
elements, as CPython does. -/
def pyStr : PyVal → String
  | .none => "None"
  | .bool b => if b then "True" else "False"
  | .int n => intToDecimal n
  | .float q =>
      if q.den = 1 then intToDecimal q.num ++ ".0"
      else intToDecimal q.num ++ "/" ++ natToDecimal q.den
  | .str s => s
  | .list xs => "[" ++ String.intercalate ", " (pyReprList xs) ++ "]"
  | .dict kvs => "\x7b" ++ String.intercalate ", " (pyReprPairs kvs) ++ "\x7d"

def pyRepr : PyVal → String
  | .str s => "'" ++ s ++ "'"
  | v => pyStr v

def pyReprList : List PyVal → List String
  | [] => []
  | x :: xs => pyRepr x :: pyReprList xs

def pyReprPairs : List (String × PyVal) → List String
  | [] => []
  | (k, v) :: kvs => ("'" ++ k ++ "': " ++ pyRepr v) :: pyReprPairs kvs

end

mutual

/-- Python structural `==` on the embedded values: numbers compare
across `bool`/`int`/`float`, lists pointwise, dicts by key lookup
(CPython dicts have unique keys, so requiring each key of the left dict
to be bound to an equal value on the right plus equal sizes is `==`). -/
def pyEq : PyVal → PyVal → Bool
  | .none, .none => true
  | .bool a, .bool b => a == b
  | .bool a, .int m => decide ((if a then 1 else 0 : ℤ) = m)
  | .int n, .bool b => decide (n = (if b then 1 else 0 : ℤ))
  | .bool a, .float q => decide ((if a then 1 else 0 : ℚ) = q)
  | .float q, .bool b => decide (q = (if b then 1 else 0 : ℚ))
  | .int n, .int m => decide (n = m)
  | .int n, .float q => decide ((n : ℚ) = q)
  | .float q, .int n => decide (q = (n : ℚ))
  | .float q, .float r => decide (q = r)
  | .str s, .str t => s == t
  | .list xs, .list ys => pyEqList xs ys
  | .dict xs, .dict ys => xs.length == ys.length && pyEqPairs xs ys
  | _, _ => false

def pyEqList : List PyVal → List PyVal → Bool
  | [], [] => true
  | x :: xs, y :: ys => pyEq x y && pyEqList xs ys
  | _, _ => false

def pyEqPairs : List (String × PyVal) → List (String × PyVal) → Bool
  | [], _ => true
  | (k, v) :: xs, ys =>
      (match ys.lookup k with
       | some w => pyEq v w
       | Option.none => false) && pyEqPairs xs ys

end

/-- Python `sorted` on a list of strings (insertion sort, ascending). -/
def insertSortedStr (s : String) : List String → List String
  | [] => [s]
  | t :: ts => if s ≤ t then s :: t :: ts else t :: insertSortedStr s ts

def sortStrings (l : List String) : List String := l.foldr insertSortedStr []

/-! JSON parsing (`json.loads`), a fuel-indexed recursive-descent parser
for the subset the crawler stores: objects, arrays, escape-free strings,
decimal numbers, `true`/`false`/`null`. -/

def jsonSkipWs : List Char → List Char
  | c :: cs => if c = ' ' || c = '\t' || c = '\n' || c = '\r' then jsonSkipWs cs else c :: cs
  | [] => []

/-- Body of a JSON string after the opening quote; fails on escapes. -/
def jsonStrChars : List Char → Option (List Char × List Char)
  | [] => Option.none
  | c :: cs =>
      if c = '"' then some ([], cs)
      else if c = '\\' then Option.none
      else (jsonStrChars cs).map (fun p => (c :: p.1, p.2))

/-- JSON number at the head of the input: optional minus, digits,
optional fraction.  An integer literal becomes `PyVal.int`, a fractional
one `PyVal.float`, matching `json.loads`. -/
def jsonNumber (cs : List Char) : Option (PyVal × List Char) :=
  let signed := cs.head? = some '-'
  let body := if signed then cs.tail else cs
  let intPart := body.takeWhile isDigitChar
  if intPart.isEmpty then Option.none else
  let rest := body.dropWhile isDigitChar
  match rest with
  | '.' :: rest2 =>
      let frac := rest2.takeWhile isDigitChar
      if frac.isEmpty then Option.none else
      let q : ℚ := (digitsToNat intPart : ℚ) + (digitsToNat frac : ℚ) / ((10 : ℚ) ^ frac.length)
      some (.float (if signed then -q else q), rest2.dropWhile isDigitChar)
  | _ =>
      let n : ℤ := (digitsToNat intPart : ℤ)
      some (.int (if signed then -n else n), rest)

mutual

def jsonParseVal : Nat → List Char → Option (PyVal × List Char)
  | 0, _ => Option.none
  | fuel + 1, cs =>
      match jsonSkipWs cs with
      | '"' :: rest => (jsonStrChars rest).map (fun p => (.str p.1.asString, p.2))
      | '[' :: rest =>
          (match jsonSkipWs rest with
           | ']' :: rest2 => some (.list [], rest2)
           | rest2 => (jsonParseItems fuel rest2).map (fun p => (.list p.1, p.2)))
      | '{' :: rest =>
          (match jsonSkipWs rest with
           | '}' :: rest2 => some (.dict [], rest2)
           | rest2 => (jsonParseMembers fuel rest2).map (fun p => (.dict p.1, p.2)))
      | 't' :: 'r' :: 'u' :: 'e' :: rest => some (.bool true, rest)
      | 'f' :: 'a' :: 'l' :: 's' :: 'e' :: rest => some (.bool false, rest)
      | 'n' :: 'u' :: 'l' :: 'l' :: rest => some (.none, rest)
      | rest => jsonNumber rest

def jsonParseItems : Nat → List Char → Option (List PyVal × List Char)
  | 0, _ => Option.none
  | fuel + 1, cs =>
      match jsonParseVal fuel cs with
      | some (v, rest) =>
          (match jsonSkipWs rest with
           | ',' :: rest2 => (jsonParseItems fuel rest2).map (fun p => (v :: p.1, p.2))
           | ']' :: rest2 => some ([v], rest2)
           | _ => Option.none)
      | Option.none => Option.none

def jsonParseMembers : Nat → List Char → Option (List (String × PyVal) × List Char)
  | 0, _ => Option.none
  | fuel + 1, cs =>
      match jsonSkipWs cs with
      | '"' :: rest =>
          match jsonStrChars rest with
          | some (key, rest2) =>
              (match jsonSkipWs rest2 with
               | ':' :: rest3 =>
                   match jsonParseVal fuel rest3 with
                   | some (v, rest4) =>
                       (match jsonSkipWs rest4 with
                        | ',' :: rest5 =>
                            (jsonParseMembers fuel rest5).map
                              (fun p => ((key.asString, v) :: p.1, p.2))
                        | '}' :: rest5 => some ([(key.asString, v)], rest5)
                        | _ => Option.none)
                   | Option.none => Option.none
               | _ => Option.none)
          | Option.none => Option.none
      | _ => Option.none

end

/-- Python `json.loads(s)`: parse one value, allow surrounding
whitespace, require the input to be consumed. -/
def jsonLoads (s : String) : Option PyVal :=
  match jsonParseVal (s.length + 1) s.data with
  | some (v, rest) => if (jsonSkipWs rest).isEmpty then some v else Option.none
  | Option.none => Option.none

/-! The snapshot diff engine: `crawler/change_detector.py`. -/

namespace ChangeDetector

/-- Field kinds of the monitored-field registry
(`ChangeDetector.monitored_fields`). -/
inductive FieldType where
  | string
  | json
  | int
  | float
deriving DecidableEq

structure FieldConfig where
  ftype : FieldType
  threshold : Option ℚ
deriving DecidableEq

/-- The 23-entry monitored-field registry, in the source's insertion
order (`ChangeDetector.__init__`). -/
def monitoredFields : List (String × FieldConfig) :=
  [ ("title", ⟨.string, Option.none⟩),
    ("product_description", ⟨.string, Option.none⟩),
    ("product_description_images", ⟨.json, Option.none⟩),
    ("product_information", ⟨.json, Option.none⟩),
    ("about_this_item", ⟨.json, Option.none⟩),
    ("image_count", ⟨.int, some 1⟩),
    ("image_urls", ⟨.json, Option.none⟩),
    ("video_count", ⟨.int, some 1⟩),
    ("video_urls", ⟨.json, Option.none⟩),
    ("sale_price", ⟨.float, some (1/100)⟩),
    ("list_price", ⟨.float, some (1/100)⟩),
    ("sale_percentage", ⟨.float, some (1/10)⟩),
    ("best_deal", ⟨.string, Option.none⟩),
    ("lightning_deal", ⟨.string, Option.none⟩),
    ("coupon", ⟨.string, Option.none⟩),
    ("bag_sale", ⟨.string, Option.none⟩),
    ("rating", ⟨.float, some (1/10)⟩),
    ("rating_count", ⟨.int, some 1⟩),
    ("brand_store_link", ⟨.string, Option.none⟩),
    ("sold_by_link", ⟨.string, Option.none⟩),
    ("advertised_asins", ⟨.json, Option.none⟩),
    ("amazon_choice", ⟨.int, Option.none⟩),
    ("inventory", ⟨.string, Option.none⟩) ]

/-- The `not value or (len(value) == 1 and 'full_details' in value and
not value['full_details'])` test from `_get_field_value_for_compare` /
`_equal_value`: a dict counts as empty when it has no keys or exactly
one key `full_details` bound to a falsy value. -/
def emptyInfoDict (kvs : List (String × PyVal)) : Bool :=
  kvs.isEmpty ||
    (kvs.length == 1 &&
      (match kvs.lookup "full_details" with
       | some v => pyFalsy v
       | Option.none => false))

/-- List-field normalization `sorted([str(x) for x in v])`. -/
def sortedStrList (xs : List PyVal) : PyVal :=
  .list ((sortStrings (xs.map pyStr)).map PyVal.str)

/-- `ChangeDetector._get_field_value_for_compare`. -/
def getFieldValueForCompare (value : PyVal) (field : String) : PyVal :=
  if field ∈ ["amazon_choice", "image_count", "video_count", "rating_count"] then
    match value with
    | .none => .none
    | v => match pyInt v with
           | some n => .int n
           | Option.none => v
  else if field ∈ ["sale_price", "list_price", "sale_percentage", "rating"] then
    match value with
    | .none => .none
    | v => match pyFloat v with
           | some q => .float q
           | Option.none => v
  else if field ∈ ["advertised_asins", "image_urls", "video_urls"] then
    match value with
    | .list xs => sortedStrList xs
    | .none => .list []
    | .str s =>
        (match jsonLoads s with
         | some (.list xs) => sortedStrList xs
         | _ => .list [.str s])
    | v => .list [.str (pyStr v)]
  else if field ∈ ["product_information", "about_this_item"] then
    match value with
    | .none => .dict []
    | .dict kvs => if emptyInfoDict kvs then .dict [] else .dict kvs
    | .str s =>
        (match jsonLoads s with
         | some (.dict kvs) => if emptyInfoDict kvs then .dict [] else .dict kvs
         | _ => .dict [])
    | _ => .dict []
  else value

/-- `ChangeDetector._equal_value`: `None` handling, the special
empty-dict case, numeric comparison for `int`/`float`/`str` (falling
back to `str(a) == str(b)` when `float()` raises), sorted string lists,
and Python `==` otherwise. -/
def equalValue (a b : PyVal) : Bool :=
  match a, b with
  | .none, .none => true
  | .none, _ => false
  | _, .none => false
  | .dict x, .dict y =>
      if emptyInfoDict x && emptyInfoDict y then true
      else pyEq (.dict x) (.dict y)
  | .list xs, .list ys => sortStrings (xs.map pyStr) == sortStrings (ys.map pyStr)
  | a, b =>
      if (match a with | .bool _ | .int _ | .float _ | .str _ => true | _ => false) &&
         (match b with | .bool _ | .int _ | .float _ | .str _ => true | _ => false) then
        match pyFloat a, pyFloat b with
        | some x, some y => decide (x = y)
        | _, _ => pyStr a == pyStr b
      else pyEq a b

/-- One recorded change: normalized old/new value and the field kind. -/
structure Change where
  old : PyVal
  new : PyVal
  ftype : FieldType

/-- Test for the Python value `None`. -/
def isNoneVal : PyVal → Bool
  | .none => true
  | _ => false

/-- The `isinstance(old_value, dict) and isinstance(new_value, dict)`
empty-check of `_compare_data`'s structured-field skip. -/
def bothEmptyStructured : PyVal → PyVal → Bool
  | .dict o, .dict n => emptyInfoDict o && emptyInfoDict n
  | _, _ => false

/-- The body of `_compare_data`'s loop for one field: `Option.none`
means the field is skipped (both `None`, both empty structured dicts, or
equal), `some` carries the recorded change. -/
def fieldChange (field : String) (cfg : FieldConfig) (oldRaw newRaw : PyVal) :
    Option Change :=
  let oldValue := getFieldValueForCompare oldRaw field
  let newValue := getFieldValueForCompare newRaw field
  if isNoneVal oldValue && isNoneVal newValue then Option.none
  else if decide (field ∈ ["product_information", "about_this_item"]) &&
          bothEmptyStructured oldValue newValue then Option.none
  else if equalValue oldValue newValue then Option.none
  else some ⟨oldValue, newValue, cfg.ftype⟩

/-- Snapshot data as the detector sees it: a Python dict from field name
to value; `data.get(field)` of a missing key is `None`. -/
def getRaw (data : List (String × PyVal)) (field : String) : PyVal :=
  (data.lookup field).getD .none

/-- `ChangeDetector._compare_data`: iterate the registry in order and
collect the changed fields (the Python loop appends one entry per
changed field, which is exactly `filterMap` over the registry). -/
def compareData (oldData newData : List (String × PyVal)) :
    List (String × Change) :=
  monitoredFields.filterMap (fun p =>
    (fieldChange p.1 p.2 (getRaw oldData p.1) (getRaw newData p.1)).map
      (fun ch => (p.1, ch)))

/-- `ChangeDetector._is_change_significant`: reports every change. -/
def isChangeSignificant (_field : String) (_ch : Change) : Bool := true

/-- `ChangeDetector._filter_significant_changes`. -/
def filterSignificantChanges (changes : List (String × Change)) :
    List (String × Change) :=
  changes.filter (fun p => isChangeSignificant p.1 p.2)

/-- One row of `product_crawl_history` as the detector reads it. -/
structure Snapshot where
  asin : String
  crawlDate : Nat
  crawlSuccess : Bool
  fields : List (String × PyVal)

/-- Projection of a snapshot row onto the monitored fields
(`getattr(crawl, field, None)` for each registry key). -/
def snapData (sn : Snapshot) : List (String × PyVal) :=
  monitoredFields.map (fun p => (p.1, (sn.fields.lookup p.1).getD .none))

/-- First row of the date-descending query result: the snapshot with
the maximal `crawl_date` (the first such on ties). -/
def newestIn (l : List Snapshot) : Option Snapshot :=
  l.foldl (fun acc sn =>
    match acc with
    | Option.none => some sn
    | some b => if b.crawlDate < sn.crawlDate then some sn else some b) Option.none

/-- `ChangeDetector._get_yesterday_crawl_data`: newest successful
snapshot of the item whose date lies in yesterday's window
`[startY, endY]`, projected onto the monitored fields. -/
def getYesterdayCrawlData (history : List Snapshot) (asin : String)
    (startY endY : Nat) : Option (List (String × PyVal)) :=
  (newestIn (history.filter (fun sn =>
      sn.asin = asin && sn.crawlSuccess &&
      startY ≤ sn.crawlDate && sn.crawlDate ≤ endY))).map snapData

/-- Result dict of `detect_and_notify_changes`. -/
inductive DetectOutcome where
  | firstCrawl
  | noChanges
  | changed (changes : List (String × Change))

/-- A dispatched notification (`send_notification(asin, changes,
new_data)`). -/
structure Notification where
  asin : String
  changes : List (String × Change)
  newData : List (String × PyVal)

/-- `ChangeDetector.detect_and_notify_changes`: look up yesterday's
snapshot, compare, filter, and dispatch a notification only when
significant changes exist.  The second component records the
notifications sent. -/
def detectAndNotifyChanges (history : List Snapshot) (asin : String)
    (startY endY : Nat) (newData : List (String × PyVal)) :
    DetectOutcome × List Notification :=
  match getYesterdayCrawlData history asin startY endY with
  | Option.none => (.firstCrawl, [])
  | some previousData =>
      let changes := compareData previousData newData
      let significantChanges := filterSignificantChanges changes
      if significantChanges.isEmpty then (.noChanges, [])
      else (.changed significantChanges, [⟨asin, significantChanges, newData⟩])

/-- Insertion into a date-descending list (models the query's
`order_by(crawl_date.desc())`). -/
def insertByDateDesc (s : Snapshot) : List Snapshot → List Snapshot
  | [] => [s]
  | t :: ts => if t.crawlDate < s.crawlDate then s :: t :: ts else t :: insertByDateDesc s ts

def sortByDateDesc (l : List Snapshot) : List Snapshot := l.foldr insertByDateDesc []

/-- The loop of `get_change_history`: for `i` in `0..len-2`, diff row
`i+1` (older) against row `i` (newer) and record the date of the newer
row when significant changes exist. -/
def pairDiffs : List Snapshot → List (Nat × List (String × Change))
  | a :: b :: rest =>
      let sig := filterSignificantChanges (compareData (snapData b) (snapData a))
      (if sig.isEmpty then [] else [(a.crawlDate, sig)]) ++ pairDiffs (b :: rest)
  | _ => []

/-- `ChangeDetector.get_change_history`: all rows of the item with
`crawl_date >= since` (note: no `crawl_success` filter in the query),
newest first, consecutive pairs diffed. -/
def getChangeHistory (history : List Snapshot) (asin : String) (since : Nat) :
    List (Nat × List (String × Change)) :=
  let rows := sortByDateDesc (history.filter (fun sn =>
      sn.asin = asin && since ≤ sn.crawlDate))
  if rows.length < 2 then [] else pairDiffs rows

/-- Modelled from the spec: `get_history` as §4.5 words it — "diffing
each consecutive pair of successful snapshots in the window", i.e. the
same pairing restricted to rows with a true success flag.  Used only to
compare against the code's `getChangeHistory`. -/
def getChangeHistorySuccessOnly (history : List Snapshot) (asin : String)
    (since : Nat) : List (Nat × List (String × Change)) :=
  let rows := sortByDateDesc (history.filter (fun sn =>
      sn.asin = asin && sn.crawlSuccess && since ≤ sn.crawlDate))
  if rows.length < 2 then [] else pairDiffs rows

end ChangeDetector

/-! The optimized batch importer: `utils/batch_import_optimized.py`. -/

namespace BatchImporter

/-- Outcome of one `_crawl_single_asin_concurrent` task as seen by
`asyncio.gather(..., return_exceptions=True)`: either an exception
object or the task's result dict with its `success` flag and optional
error. -/
inductive TaskOutcome where
  | exc (msg : String)
  | ok (success : Bool) (err : Option String)

/-- One entry of `batch_result['results']`. -/
structure ItemResult where
  asin : String
  success : Bool
  error : Option String
deriving DecidableEq

/-- `batch_result` of `_crawl_batch_with_profile_reuse`. -/
structure BatchResult where
  batchSize : Nat
  successful : Nat
  failed : Nat
  profilesUsed : Nat
  results : List ItemResult
deriving DecidableEq

/-- The record appended for one task's outcome in
`_crawl_batch_with_profile_reuse`'s result loop. -/
def recordOutcome (item : String × TaskOutcome) : ItemResult :=
  match item.2 with
  | .exc m => ⟨item.1, false, some m⟩
  | .ok s e => ⟨item.1, s, e⟩

/-- One iteration of `_crawl_batch_with_profile_reuse`'s result loop:
an exception increments `failed`, a returned dict increments
`successful` or `failed` by its flag, and the item's record is
appended. -/
def batchStep (acc : BatchResult) (item : String × TaskOutcome) : BatchResult :=
  match item.2 with
  | .exc m =>
      { acc with failed := acc.failed + 1,
                 results := acc.results ++ [⟨item.1, false, some m⟩] }
  | .ok s e =>
      if s then
        { acc with successful := acc.successful + 1,
                   results := acc.results ++ [⟨item.1, true, e⟩] }
      else
        { acc with failed := acc.failed + 1,
                   results := acc.results ++ [⟨item.1, false, e⟩] }

/-- `OptimizedBatchImporter._crawl_batch_with_profile_reuse`: every
task's outcome is counted exactly once, and
`profiles_used = min(len(batch), max_profiles)`. -/
def crawlBatchWithProfileReuse (batch : List (String × TaskOutcome))
    (maxProfiles : Nat) : BatchResult :=
  let r := batch.foldl batchStep ⟨batch.length, 0, 0, 0, []⟩
  { r with profilesUsed := min batch.length maxProfiles }

/-- Aggregate `crawl_results` of `_crawl_asins_optimized`. -/
structure CrawlStats where
  totalAsins : Nat
  batchesProcessed : Nat
  successfulCrawls : Nat
  failedCrawls : Nat
  profilesUsed : Nat
  batchResults : List BatchResult
deriving DecidableEq

/-- The chunking loop `for i in range(0, len(asin_data), batch_size)`:
consecutive slices of `batchSize` items (meaningful for
`batchSize > 0`, as in Python where a zero step raises). -/
def chunksOf (batchSize : Nat) : List α → List (List α)
  | [] => []
  | x :: xs => (x :: xs.take (batchSize - 1)) :: chunksOf batchSize (xs.drop (batchSize - 1))
termination_by l => l.length
decreasing_by simp [List.length_drop]; omega

/-- `OptimizedBatchImporter._crawl_asins_optimized`: process the work
list in batches, summing each batch's counters into the aggregate
statistics (`profiles_used` is overwritten by each batch, so the last
one survives). -/
def crawlAsinsOptimized (asinData : List (String × TaskOutcome))
    (batchSize maxProfiles : Nat) : CrawlStats :=
  let batches := (chunksOf batchSize asinData).map
    (fun b => crawlBatchWithProfileReuse b maxProfiles)
  { totalAsins := asinData.length,
    batchesProcessed := batches.length,
    successfulCrawls := (batches.map (·.successful)).sum,
    failedCrawls := (batches.map (·.failed)).sum,
    profilesUsed := (batches.map (·.profilesUsed)).getLastD 0,
    batchResults := batches }

/-! The profile pool and the port allocator.  All mutations of
`profile_pool` and `used_ports` happen under the importer's locks, so a
run is a sequence of atomic operations on the importer state. -/

/-- One resident profile: `{'crawler': ..., 'port': port,
'delivery_set': bool, 'created_at': datetime}` with creation time as a
logical clock. -/
structure ProfileEntry where
  port : Nat
  deliverySet : Bool
  createdAt : Nat
deriving DecidableEq

/-- The importer's shared state: the fixed port pool, the held-port
set, the insertion-ordered profile dict, the capacity, and the clock
driving `created_at`. -/
structure ImporterState where
  portPool : List Nat
  usedPorts : List Nat
  profilePool : List (Nat × ProfileEntry)
  maxProfiles : Nat
  clock : Nat
deriving DecidableEq

/-- `OptimizedBatchImporter.__init__`: ports 9222–9999, no held ports,
empty pool, capacity 50. -/
def initImporter : ImporterState :=
  { portPool := List.range' 9222 778,
    usedPorts := [],
    profilePool := [],
    maxProfiles := 50,
    clock := 0 }

/-- Python `set.add`. -/
def addPort (p : Nat) (used : List Nat) : List Nat :=
  if p ∈ used then used else used ++ [p]

/-- `OptimizedBatchImporter._get_available_port`: choose among the free
ports (`choice` stands for `random.choice`, supplied as an index); if
none is free, clear the held set and choose from the whole pool. -/
def getAvailablePort (s : ImporterState) (choice : Nat) : Nat × ImporterState :=
  let availablePorts := s.portPool.filter (fun p => p ∉ s.usedPorts)
  if availablePorts.isEmpty then
    let port := s.portPool.getD (choice % s.portPool.length) 0
    (port, { s with usedPorts := addPort port [] })
  else
    let port := availablePorts.getD (choice % availablePorts.length) 0
    (port, { s with usedPorts := addPort port s.usedPorts })

/-- `OptimizedBatchImporter._release_port` (`set.discard`). -/
def releasePort (port : Nat) (s : ImporterState) : ImporterState :=
  { s with usedPorts := s.usedPorts.erase port }

/-- `dict.pop(k)` on the profile dict: drop the unique entry keyed `k`. -/
def removeKey (k : Nat) (l : List (Nat × ProfileEntry)) : List (Nat × ProfileEntry) :=
  l.filter (fun p => p.1 ≠ k)

/-- `min(self.profile_pool.keys())`. -/
def minKey (l : List (Nat × ProfileEntry)) : Option Nat :=
  (l.map Prod.fst).min?

/-- `OptimizedBatchImporter._get_or_create_profile`: return the
resident entry if present; otherwise, at capacity, evict the resident
with the smallest profile id (close its session, release its port),
then create a new entry on a freshly chosen port with
`delivery_set = False`. -/
def getOrCreateProfile (s : ImporterState) (profileId choice : Nat) :
    ProfileEntry × ImporterState :=
  match s.profilePool.lookup profileId with
  | some profile => (profile, s)
  | Option.none =>
      let s1 :=
        if s.maxProfiles ≤ s.profilePool.length then
          match minKey s.profilePool with
          | some oldestId =>
              match s.profilePool.lookup oldestId with
              | some oldProfile =>
                  releasePort oldProfile.port
                    { s with profilePool := removeKey oldestId s.profilePool }
              | Option.none => s
          | Option.none => s
        else s
      let (port, s2) := getAvailablePort s1 choice
      let profile : ProfileEntry := ⟨port, false, s2.clock⟩
      (profile,
       { s2 with profilePool := s2.profilePool ++ [(profileId, profile)],
                 clock := s2.clock + 1 })

/-- `OptimizedBatchImporter._release_profile`. -/
def releaseProfile (s : ImporterState) (profileId : Nat) : ImporterState :=
  match s.profilePool.lookup profileId with
  | some profile =>
      releasePort profile.port
        { s with profilePool := removeKey profileId s.profilePool }
  | Option.none => s

/-- `OptimizedBatchImporter.cleanup`: release every resident's port and
clear the pool. -/
def cleanupProfiles (s : ImporterState) : ImporterState :=
  let s1 := s.profilePool.foldl (fun st p => releasePort p.2.port st) s
  { s1 with profilePool := [] }

/-- The importer operations a run interleaves (the `choice` of
`getOrCreate` stands for `random.choice`). -/
inductive ImporterOp where
  | getOrCreate (profileId choice : Nat)
  | release (profileId : Nat)
  | cleanup

def applyOp (s : ImporterState) : ImporterOp → ImporterState
  | .getOrCreate pid choice => (getOrCreateProfile s pid choice).2
  | .release pid => releaseProfile s pid
  | .cleanup => cleanupProfiles s

/-- A run of the importer from a state. -/
def runOps (ops : List ImporterOp) (s : ImporterState) : ImporterState :=
  ops.foldl applyOp s

/-- Ports of the resident sessions. -/
def residentPorts (s : ImporterState) : List Nat :=
  s.profilePool.map (fun p => p.2.port)

end BatchImporter

/-! The single-item crawl task: `_crawl_single_asin_with_profile` and
`_update_watchlist` of `utils/batch_import_optimized.py`, together with
the persistence calls they make (`AmazonCrawler.save_to_database`
appends one `ProductCrawlHistory` row carrying the data's
`crawl_success` flag). -/

namespace CrawlTask

/-- One `asin_watchlist` row's scheduling fields. -/
structure WatchEntry where
  lastCrawled : Option Nat
  nextCrawl : Option Nat
deriving DecidableEq

/-- Outcome of `crawler.crawl_product(asin, port)`: either it raises,
or it returns a `product_data` dict carrying `crawl_success` and
`crawl_error`. -/
inductive CrawlOutcome where
  | exc (msg : String)
  | data (fields : List (String × PyVal)) (success : Bool) (err : Option String)

/-- A persisted `product_crawl_history` row as written by
`save_to_database`. -/
structure SnapshotRow where
  crawlDate : Nat
  crawlSuccess : Bool
  crawlError : Option String
  fields : List (String × PyVal)

/-- The database and profile state one task touches. -/
structure TaskState where
  watch : Option WatchEntry
  history : List SnapshotRow
  profile : BatchImporter.ProfileEntry

/-- The task's returned result dict. -/
structure TaskResult where
  asin : String
  success : Bool
  error : Option String

/-- `OptimizedBatchImporter._update_watchlist`: if the watchlist row
exists, set `last_crawled = utcnow()` and `next_crawl` from the
scheduler's `_calculate_next_crawl` (supplied as `calcNext`, a function
of the just-written `last_crawled`); a missing row is left alone. -/
def updateWatchlist (now : Nat) (calcNext : Nat → Nat)
    (watch : Option WatchEntry) : Option WatchEntry :=
  match watch with
  | some _ => some ⟨some now, some (calcNext now)⟩
  | Option.none => Option.none

/-- `OptimizedBatchImporter._crawl_single_asin_with_profile`: crawl,
mark the profile's `delivery_set` on success, persist exactly one
snapshot row, then update the watchlist — unconditionally — and return
the result dict.  If `crawl_product` raises, the except-branch returns
a failure result and none of the persistence steps run. -/
def crawlSingleAsinWithProfile (asin : String) (outcome : CrawlOutcome)
    (now : Nat) (calcNext : Nat → Nat) (st : TaskState) :
    TaskResult × TaskState :=
  match outcome with
  | .exc m => (⟨asin, false, some m⟩, st)
  | .data flds success err =>
      let profile :=
        if success then { st.profile with deliverySet := true } else st.profile
      let history := st.history ++ [⟨now, success, err, flds⟩]
      let watch := updateWatchlist now calcNext st.watch
      (⟨asin, success, err⟩, ⟨watch, history, profile⟩)

end CrawlTask

/-! Helper lemmas about `compareData`: the registry is keyed by distinct
field names, so looking a field up in the produced change map evaluates
the per-field body for exactly that field. -/

namespace ChangeDetector

theorem lookup_keyed_filterMap_none {γ : Type} (h : String → FieldConfig → Option γ)
    (L : List (String × FieldConfig)) (f : String) (hf : f ∉ L.map Prod.fst) :
    (L.filterMap (fun p => (h p.1 p.2).map (fun ch => (p.1, ch)))).lookup f
      = Option.none := by
  induction L with
  | nil => rfl
  | cons p rest ih =>
      simp only [List.map_cons, List.mem_cons, not_or] at hf
      obtain ⟨hne, hrest⟩ := hf
      simp only [List.filterMap_cons]
      cases hh : h p.1 p.2 with
      | none => exact ih hrest
      | some ch =>
          simp only [Option.map_some']
          rw [List.lookup_cons, beq_false_of_ne hne]
          exact ih hrest

theorem lookup_keyed_filterMap {γ : Type} (h : String → FieldConfig → Option γ)
    (L : List (String × FieldConfig)) (hnd : (L.map Prod.fst).Nodup)
    (f : String) (cfg : FieldConfig) (hf : (f, cfg) ∈ L) :
    (L.filterMap (fun p => (h p.1 p.2).map (fun ch => (p.1, ch)))).lookup f
      = h f cfg := by
  induction L with
  | nil => cases hf
  | cons p rest ih =>
      simp only [List.map_cons, List.nodup_cons] at hnd
      obtain ⟨hnotin, hndrest⟩ := hnd
      rcases List.mem_cons.1 hf with heq | hmem
      · subst heq
        simp only [List.filterMap_cons]
        cases hh : h f cfg with
        | none =>
            exact lookup_keyed_filterMap_none h rest f hnotin
        | some ch =>
            simp [List.lookup_cons_self]
      · have hne : f ≠ p.1 := by
          intro hcontra
          exact hnotin (hcontra ▸ (List.mem_map.2 ⟨(f, cfg), hmem, rfl⟩))
        simp only [List.filterMap_cons]
        cases hh : h p.1 p.2 with
        | none => exact ih hndrest hmem
        | some ch =>
            simp only [Option.map_some']
            rw [List.lookup_cons, beq_false_of_ne hne]
            exact ih hndrest hmem

theorem monitoredFields_keys_nodup : (monitoredFields.map Prod.fst).Nodup := by
  decide

/-- Looking up a monitored field in `_compare_data`'s result evaluates
the loop body for that field alone. -/
theorem lookup_compareData (f : String) (cfg : FieldConfig)
    (hf : (f, cfg) ∈ monitoredFields) (oldData newData : List (String × PyVal)) :
    (compareData oldData newData).lookup f
      = fieldChange f cfg (getRaw oldData f) (getRaw newData f) := by
  exact lookup_keyed_filterMap
    (fun g c => fieldChange g c (getRaw oldData g) (getRaw newData g))
    monitoredFields monitoredFields_keys_nodup f cfg hf

end ChangeDetector

namespace ChangeDetector

/-- The `isinstance(v, (int, float, str))` test of `_equal_value`
(Python `bool` is a subclass of `int`, so it passes too). -/
def isScalar : PyVal → Bool
  | .bool _ => true
  | .int _ => true
  | .float _ => true
  | .str _ => true
  | _ => false

theorem fieldChange_reduce (f : String) (cfg : FieldConfig)
    (oldRaw newRaw oldV newV : PyVal)
    (h1 : getFieldValueForCompare oldRaw f = oldV)
    (h2 : getFieldValueForCompare newRaw f = newV)
    (hnone : (isNoneVal oldV && isNoneVal newV) = false)
    (hnd : (decide (f ∈ ["product_information", "about_this_item"]) &&
            bothEmptyStructured oldV newV) = false) :
    fieldChange f cfg oldRaw newRaw
      = if equalValue oldV newV = true then Option.none
        else some ⟨oldV, newV, cfg.ftype⟩ := by
  simp only [fieldChange, h1, h2]
  rw [if_neg (by rw [hnone]; exact Bool.false_ne_true)]
  rw [if_neg (by rw [hnd]; exact Bool.false_ne_true)]

theorem fieldChange_skip_structured (f : String) (cfg : FieldConfig)
    (oldRaw newRaw : PyVal)
    (h1 : getFieldValueForCompare oldRaw f = .dict [])
    (h2 : getFieldValueForCompare newRaw f = .dict [])
    (hf : f ∈ ["product_information", "about_this_item"]) :
    fieldChange f cfg oldRaw newRaw = Option.none := by
  simp only [fieldChange, h1, h2]
  rw [if_neg (by exact Bool.false_ne_true)]
  rw [if_pos]
  simp [hf, bothEmptyStructured, emptyInfoDict]

theorem equalValue_scalar (a b : PyVal) (ha : isScalar a = true)
    (hb : isScalar b = true) :
    equalValue a b = (match pyFloat a, pyFloat b with
                      | some x, some y => decide (x = y)
                      | _, _ => pyStr a == pyStr b) := by
  cases a <;> cases b <;> first | rfl | simp [isScalar] at ha hb

theorem isNoneVal_scalar (a : PyVal) (ha : isScalar a = true) :
    isNoneVal a = false := by
  cases a <;> first | rfl | simp [isScalar] at ha

theorem bothEmptyStructured_scalar (a b : PyVal) (ha : isScalar a = true) :
    bothEmptyStructured a b = false := by
  cases a <;> first | (cases b <;> rfl) | simp [isScalar] at ha

theorem gfv_float_field (f : String) (q : ℚ)
    (h1 : f ∉ ["amazon_choice", "image_count", "video_count", "rating_count"])
    (h2 : f ∈ ["sale_price", "list_price", "sale_percentage", "rating"]) :
    getFieldValueForCompare (.float q) f = .float q := by
  delta getFieldValueForCompare
  rw [if_neg h1, if_pos h2]
  rfl

theorem gfv_int_field (f : String) (n : ℤ)
    (h1 : f ∈ ["amazon_choice", "image_count", "video_count", "rating_count"]) :
    getFieldValueForCompare (.int n) f = .int n := by
  delta getFieldValueForCompare
  rw [if_pos h1]
  rfl

theorem gfv_default_field (f : String) (v : PyVal)
    (h1 : f ∉ ["amazon_choice", "image_count", "video_count", "rating_count"])
    (h2 : f ∉ ["sale_price", "list_price", "sale_percentage", "rating"])
    (h3 : f ∉ ["advertised_asins", "image_urls", "video_urls"])
    (h4 : f ∉ ["product_information", "about_this_item"]) :
    getFieldValueForCompare v f = v := by
  delta getFieldValueForCompare
  rw [if_neg h1, if_neg h2, if_neg h3, if_neg h4]

end ChangeDetector

namespace ChangeDetector

theorem compareData_float_lookup (f : String)
    (hf : f ∈ ["sale_price", "list_price", "sale_percentage", "rating"])
    (oldD newD : List (String × PyVal)) (q1 q2 : ℚ)
    (hOld : getRaw oldD f = .float q1) (hNew : getRaw newD f = .float q2) :
    (compareData oldD newD).lookup f
      = if q1 = q2 then Option.none
        else some ⟨.float q1, .float q2, .float⟩ := by
  have hconv1 : getFieldValueForCompare (.float q1) f = .float q1 :=
    gfv_float_field f q1 (by fin_cases hf <;> decide) hf
  have hconv2 : getFieldValueForCompare (.float q2) f = .float q2 :=
    gfv_float_field f q2 (by fin_cases hf <;> decide) hf
  obtain ⟨cfg, hmem, hty⟩ :
      ∃ cfg : FieldConfig, (f, cfg) ∈ monitoredFields ∧ cfg.ftype = .float := by
    fin_cases hf
    exacts [⟨⟨.float, some (1/100)⟩, by simp [monitoredFields], rfl⟩,
            ⟨⟨.float, some (1/100)⟩, by simp [monitoredFields], rfl⟩,
            ⟨⟨.float, some (1/10)⟩, by simp [monitoredFields], rfl⟩,
            ⟨⟨.float, some (1/10)⟩, by simp [monitoredFields], rfl⟩]
  rw [lookup_compareData f cfg hmem, hOld, hNew,
      fieldChange_reduce f cfg (.float q1) (.float q2) (.float q1) (.float q2)
        hconv1 hconv2 rfl
        (by rw [show bothEmptyStructured (.float q1) (.float q2) = false from rfl]
            exact Bool.and_false _)]
  rw [show equalValue (.float q1) (.float q2) = decide (q1 = q2) from rfl]
  by_cases h : q1 = q2 <;> simp [h, hty]

theorem compareData_int_lookup (f : String)
    (hf : f ∈ ["image_count", "video_count", "rating_count"])
    (oldD newD : List (String × PyVal)) (n1 n2 : ℤ)
    (hOld : getRaw oldD f = .int n1) (hNew : getRaw newD f = .int n2) :
    (compareData oldD newD).lookup f
      = if n1 = n2 then Option.none
        else some ⟨.int n1, .int n2, .int⟩ := by
  have hconv1 : getFieldValueForCompare (.int n1) f = .int n1 :=
    gfv_int_field f n1 (by fin_cases hf <;> decide)
  have hconv2 : getFieldValueForCompare (.int n2) f = .int n2 :=
    gfv_int_field f n2 (by fin_cases hf <;> decide)
  have hmem : (f, (⟨.int, some 1⟩ : FieldConfig)) ∈ monitoredFields := by
    fin_cases hf <;> simp [monitoredFields]
  rw [lookup_compareData f ⟨.int, some 1⟩ hmem, hOld, hNew,
      fieldChange_reduce f ⟨.int, some 1⟩ (.int n1) (.int n2) (.int n1) (.int n2)
        hconv1 hconv2 rfl
        (by rw [show bothEmptyStructured (.int n1) (.int n2) = false from rfl]
            exact Bool.and_false _)]
  rw [show equalValue (.int n1) (.int n2) = decide ((n1 : ℚ) = (n2 : ℚ)) from rfl]
  by_cases h : n1 = n2 <;> simp [h, Int.cast_injective.eq_iff]

theorem compareData_string_lookup (f : String)
    (hf : f ∈ ["title", "product_description", "best_deal", "lightning_deal",
               "coupon", "bag_sale", "brand_store_link", "sold_by_link", "inventory"])
    (oldD newD : List (String × PyVal)) (s t : String)
    (hOld : getRaw oldD f = .str s) (hNew : getRaw newD f = .str t)
    (hs : parseFloatStr s = Option.none) :
    (compareData oldD newD).lookup f
      = if s = t then Option.none else some ⟨.str s, .str t, .string⟩ := by
  have hconv1 : getFieldValueForCompare (.str s) f = .str s :=
    gfv_default_field f (.str s) (by fin_cases hf <;> decide)
      (by fin_cases hf <;> decide) (by fin_cases hf <;> decide)
      (by fin_cases hf <;> decide)
  have hconv2 : getFieldValueForCompare (.str t) f = .str t :=
    gfv_default_field f (.str t) (by fin_cases hf <;> decide)
      (by fin_cases hf <;> decide) (by fin_cases hf <;> decide)
      (by fin_cases hf <;> decide)
  have hmem : (f, (⟨.string, Option.none⟩ : FieldConfig)) ∈ monitoredFields := by
    fin_cases hf <;> simp [monitoredFields]
  rw [lookup_compareData f ⟨.string, Option.none⟩ hmem, hOld, hNew,
      fieldChange_reduce f ⟨.string, Option.none⟩ (.str s) (.str t) (.str s) (.str t)
        hconv1 hconv2 rfl
        (by rw [show bothEmptyStructured (.str s) (.str t) = false from rfl]
            exact Bool.and_false _)]
  rw [equalValue_scalar (.str s) (.str t) rfl rfl,
      show pyFloat (.str s) = parseFloatStr s from rfl,
      show pyFloat (.str t) = parseFloatStr t from rfl, hs]
  have hfall : (match (Option.none : Option ℚ), parseFloatStr t with
                | some x, some y => decide (x = y)
                | _, _ => pyStr (.str s) == pyStr (.str t))
      = (pyStr (.str s) == pyStr (.str t)) := by
    cases parseFloatStr t <;> rfl
  rw [hfall]
  simp only [pyStr]
  by_cases h : s = t <;> simp [h]

end ChangeDetector

/-! Claim theorems for the snapshot diff engine. -/

/-- C1 (counterexample): with a configured threshold of 0.01 for
`sale_price`, old `10.00` vs new `10.004` differs by 0.004 < 0.01, so
the claim demands "unchanged"; the code's diff
(`_compare_data` → `_equal_value`) compares parsed floats exactly and
reports the field as changed. -/
theorem c1_counterexample :
    ((ChangeDetector.compareData [("sale_price", PyVal.float 10)]
        [("sale_price", PyVal.float (2501/250))]).lookup "sale_price").isSome = true ∧
    |(2501/250 : ℚ) - 10| < 1/100 := by
  refine ⟨?_, by rw [abs_of_pos (by norm_num)]; norm_num⟩
  rw [ChangeDetector.compareData_float_lookup "sale_price" (by simp)
      [("sale_price", PyVal.float 10)] [("sale_price", PyVal.float (2501/250))]
      10 (2501/250) rfl rfl]
  rw [if_neg (by norm_num)]
  rfl

/-- C1 (amended): the diff reports a monitored numeric field as changed
exactly when the parsed old and new values are unequal — the configured
per-field thresholds are not consulted on this path (they feed only the
unused `_values_different` helper).  For the integer-count fields the
original threshold-1 reading coincides with inequality; for the float
fields any nonzero difference, e.g. 10.00 vs 10.004, is reported. -/
theorem c1_amended_numeric_change_iff_ne :
    (∀ f, f ∈ ["sale_price", "list_price", "sale_percentage", "rating"] →
      ∀ (oldD newD : List (String × PyVal)) (q1 q2 : ℚ),
        ChangeDetector.getRaw oldD f = .float q1 →
        ChangeDetector.getRaw newD f = .float q2 →
        (((ChangeDetector.compareData oldD newD).lookup f).isSome ↔ q1 ≠ q2)) ∧
    (∀ f, f ∈ ["image_count", "video_count", "rating_count"] →
      ∀ (oldD newD : List (String × PyVal)) (n1 n2 : ℤ),
        ChangeDetector.getRaw oldD f = .int n1 →
        ChangeDetector.getRaw newD f = .int n2 →
        (((ChangeDetector.compareData oldD newD).lookup f).isSome ↔ n1 ≠ n2)) := by
  constructor
  · intro f hf oldD newD q1 q2 hOld hNew
    rw [ChangeDetector.compareData_float_lookup f hf oldD newD q1 q2 hOld hNew]
    by_cases h : q1 = q2 <;> simp [h]
  · intro f hf oldD newD n1 n2 hOld hNew
    rw [ChangeDetector.compareData_int_lookup f hf oldD newD n1 n2 hOld hNew]
    by_cases h : n1 = n2 <;> simp [h]

/-- C1 (witness): at the stated boundary, old 10.00 vs new 10.01 is
reported as a change of `sale_price`. -/
theorem c1_amended_witness :
    ((ChangeDetector.compareData [("sale_price", PyVal.float 10)]
        [("sale_price", PyVal.float (1001/100))]).lookup "sale_price").isSome
      = true := by
  rw [(c1_amended_numeric_change_iff_ne.1 "sale_price" (by simp)
      [("sale_price", PyVal.float 10)] [("sale_price", PyVal.float (1001/100))]
      10 (1001/100) rfl rfl).2 (by norm_num)]

/-- C2 (counterexample): the empty-structured normalization only
collapses a single-key dict when that key is literally `full_details`;
for `{}` vs `{"k": ""}` (a dict whose only sub-key `k` is empty) the
code reports a change of `product_information`, where the claim demands
equality. -/
theorem c2_counterexample :
    (ChangeDetector.compareData [("product_information", PyVal.dict [])]
        [("product_information", PyVal.dict [("k", PyVal.str "")])]).map Prod.fst
      = ["product_information"] ∧
    pyFalsy (PyVal.str "") = true := by
  exact ⟨rfl, rfl⟩

/-- C2 (amended): for `product_information` and `about_this_item`,
any two raw values that normalize to the empty dict — `None`, `{}`, a
non-dict stand-in, or a dict whose single key `full_details` holds a
falsy value — compare equal and produce no change entry.  Normalization
does not collapse a single-key dict under any other key name. -/
theorem c2_amended_empty_normalized_no_change :
    ∀ f, f ∈ ["product_information", "about_this_item"] →
    ∀ (oldD newD : List (String × PyVal)),
      ChangeDetector.getFieldValueForCompare (ChangeDetector.getRaw oldD f) f
        = .dict [] →
      ChangeDetector.getFieldValueForCompare (ChangeDetector.getRaw newD f) f
        = .dict [] →
      (ChangeDetector.compareData oldD newD).lookup f = Option.none := by
  intro f hf oldD newD h1 h2
  have hmem : (f, (⟨.json, Option.none⟩ : ChangeDetector.FieldConfig))
      ∈ ChangeDetector.monitoredFields := by
    fin_cases hf <;> simp [ChangeDetector.monitoredFields]
  rw [ChangeDetector.lookup_compareData f ⟨.json, Option.none⟩ hmem,
      ChangeDetector.fieldChange_skip_structured f ⟨.json, Option.none⟩ _ _ h1 h2 hf]

/-- C2 (witness): `None` on one side and `{"full_details": ""}` on the
other normalize to empty and are not reported. -/
theorem c2_amended_witness :
    (ChangeDetector.compareData [("product_information", PyVal.none)]
        [("product_information", PyVal.dict [("full_details", PyVal.str "")])]).lookup
        "product_information" = Option.none := by
  exact c2_amended_empty_normalized_no_change "product_information" (by simp)
    [("product_information", PyVal.none)]
    [("product_information", PyVal.dict [("full_details", PyVal.str "")])] rfl rfl

/-- C9 (counterexample): `title` values `" Widget"` and `"Widget"`
differ only in leading whitespace (both strip to `"Widget"`), yet the
diff reports a `title` change — `_equal_value`'s string fallback is
`str(a) == str(b)` with no whitespace normalization. -/
theorem c9_counterexample :
    ((ChangeDetector.compareData [("title", PyVal.str " Widget")]
        [("title", PyVal.str "Widget")]).lookup "title").isSome = true ∧
    trimChars " Widget".data = trimChars "Widget".data := by
  constructor
  · rw [ChangeDetector.compareData_string_lookup "title" (by simp)
        [("title", PyVal.str " Widget")] [("title", PyVal.str "Widget")]
        " Widget" "Widget" rfl rfl (by decide)]
    rw [if_neg (by decide)]
    rfl
  · decide

/-- C9 (amended): for every string-kind monitored field, when the old
value does not parse as a number the diff compares the exact strings:
a change is reported precisely when the strings differ, including
differences of leading or trailing whitespace only.  (Only when both
sides parse as floats — which itself ignores surrounding whitespace —
are they compared numerically.) -/
theorem c9_amended_exact_string_compare :
    ∀ f, f ∈ ["title", "product_description", "best_deal", "lightning_deal",
              "coupon", "bag_sale", "brand_store_link", "sold_by_link",
              "inventory"] →
    ∀ (oldD newD : List (String × PyVal)) (s t : String),
      ChangeDetector.getRaw oldD f = .str s →
      ChangeDetector.getRaw newD f = .str t →
      parseFloatStr s = Option.none →
      (((ChangeDetector.compareData oldD newD).lookup f).isSome ↔ s ≠ t) := by
  intro f hf oldD newD s t hOld hNew hs
  rw [ChangeDetector.compareData_string_lookup f hf oldD newD s t hOld hNew hs]
  by_cases h : s = t <;> simp [h]

/-- C9 (witness): a real content change of `coupon` is reported. -/
theorem c9_amended_witness :
    ((ChangeDetector.compareData [("coupon", PyVal.str "Save 5%")]
        [("coupon", PyVal.str "Save 10%")]).lookup "coupon").isSome = true := by
  rw [(c9_amended_exact_string_compare "coupon" (by simp)
      [("coupon", PyVal.str "Save 5%")] [("coupon", PyVal.str "Save 10%")]
      "Save 5%" "Save 10%" rfl rfl (by decide)).2 (by decide)]

/-- C10 (confirmed): whenever both compared values of a monitored
field are scalars (`int`, `float` or `str` — also `bool`, Python's
`int` subtype) and both parse to the same float, `_equal_value` treats
them as equal and `_compare_data` reports no change — also for
string-kind fields such as `title` or `coupon`. -/
theorem c10_numeric_first_equality :
    ∀ (f : String) (cfg : ChangeDetector.FieldConfig),
      (f, cfg) ∈ ChangeDetector.monitoredFields →
    ∀ (oldD newD : List (String × PyVal)) (q : ℚ),
      ChangeDetector.isScalar
        (ChangeDetector.getFieldValueForCompare (ChangeDetector.getRaw oldD f) f)
        = true →
      ChangeDetector.isScalar
        (ChangeDetector.getFieldValueForCompare (ChangeDetector.getRaw newD f) f)
        = true →
      pyFloat (ChangeDetector.getFieldValueForCompare
        (ChangeDetector.getRaw oldD f) f) = some q →
      pyFloat (ChangeDetector.getFieldValueForCompare
        (ChangeDetector.getRaw newD f) f) = some q →
      (ChangeDetector.compareData oldD newD).lookup f = Option.none := by
  intro f cfg hmem oldD newD q ha hb hqa hqb
  rw [ChangeDetector.lookup_compareData f cfg hmem,
      ChangeDetector.fieldChange_reduce f cfg _ _ _ _ rfl rfl
        (by rw [ChangeDetector.isNoneVal_scalar _ ha, Bool.false_and])
        (by rw [ChangeDetector.bothEmptyStructured_scalar _ _ ha, Bool.and_false])]
  rw [if_pos]
  rw [ChangeDetector.equalValue_scalar _ _ ha hb, hqa, hqb]
  simp

/-- C10 (witness): `title` strings `"10"` and `"10.0"` both parse to
the float 10 and are not reported as a change. -/
theorem c10_witness :
    (ChangeDetector.compareData [("title", PyVal.str "10")]
        [("title", PyVal.str "10.0")]).lookup "title" = Option.none := by
  have h1 : parseFloatStr "10" = some 10 := by
    rw [show parseFloatStr "10" = some ((digitsToNat ['1', '0'] : ℚ)) from rfl,
        show digitsToNat ['1', '0'] = 10 from by decide]
    norm_num
  have h2 : parseFloatStr "10.0" = some 10 := by
    rw [show parseFloatStr "10.0"
          = some ((digitsToNat ['1', '0'] : ℚ) + (digitsToNat ['0'] : ℚ) / 10 ^ 1)
          from rfl,
        show digitsToNat ['1', '0'] = 10 from by decide,
        show digitsToNat ['0'] = 0 from by decide]
    norm_num
  exact c10_numeric_first_equality "title" ⟨.string, Option.none⟩
    (by simp [ChangeDetector.monitoredFields])
    [("title", PyVal.str "10")] [("title", PyVal.str "10.0")] 10
    rfl rfl h1 h2

/-- C6 (confirmed): when no successful snapshot of the item lies in the
prior-day window, `detect_and_notify_changes` returns the
first-observation result `{'is_first_crawl': True, 'changes': {}}` and
dispatches no notification. -/
theorem c6_first_observation :
    ∀ (history : List ChangeDetector.Snapshot) (asin : String) (startY endY : Nat)
      (newData : List (String × PyVal)),
      (∀ sn ∈ history, ¬(sn.asin = asin ∧ sn.crawlSuccess = true ∧
          startY ≤ sn.crawlDate ∧ sn.crawlDate ≤ endY)) →
      ChangeDetector.detectAndNotifyChanges history asin startY endY newData
        = (.firstCrawl, []) := by
  intro history asin startY endY newData h
  have hnone : ChangeDetector.getYesterdayCrawlData history asin startY endY
      = Option.none := by
    unfold ChangeDetector.getYesterdayCrawlData
    have hfilter : history.filter (fun sn =>
        sn.asin = asin && sn.crawlSuccess && decide (startY ≤ sn.crawlDate) &&
          decide (sn.crawlDate ≤ endY)) = [] := by
      rw [List.filter_eq_nil_iff]
      intro sn hsn
      have hne := h sn hsn
      simp only [Bool.and_eq_true, decide_eq_true_eq] at *
      intro hcontra
      exact hne ⟨hcontra.1.1.1, hcontra.1.1.2, hcontra.1.2, hcontra.2⟩
    rw [hfilter]
    rfl
  unfold ChangeDetector.detectAndNotifyChanges
  rw [hnone]

/-- C6 (witness): a failed snapshot inside the window and a successful
one outside it — the diff still reports first-observation and sends
nothing. -/
theorem c6_witness :
    ChangeDetector.detectAndNotifyChanges
      [⟨"A", 5, false, []⟩, ⟨"A", 1, true, []⟩] "A" 4 6 [("title", PyVal.str "x")]
      = (.firstCrawl, []) := by
  exact c6_first_observation [⟨"A", 5, false, []⟩, ⟨"A", 1, true, []⟩] "A" 4 6
    [("title", PyVal.str "x")] (by decide)

namespace ChangeDetector

/-- The pairing loop equals zipping each row with its successor. -/
theorem pairDiffs_eq_zip : ∀ l : List Snapshot,
    pairDiffs l = (l.zip l.tail).filterMap (fun p =>
      let sig := filterSignificantChanges (compareData (snapData p.2) (snapData p.1))
      if sig.isEmpty then Option.none else some (p.1.crawlDate, sig))
  | [] => rfl
  | [_] => rfl
  | a :: b :: rest => by
      have ih := pairDiffs_eq_zip (b :: rest)
      simp only [pairDiffs, List.tail_cons, List.zip_cons_cons, List.filterMap_cons]
      rw [List.tail_cons] at ih
      by_cases h : (filterSignificantChanges
          (compareData (snapData b) (snapData a))).isEmpty
      · simp [h, ih]
      · simp [h, ih]

end ChangeDetector

/-- C8 (counterexample): in a window holding a successful snapshot
(date 1, price 10), a failed one (date 2, price 20) and a successful
one (date 3, price 10), the code pairs the failed snapshot with both
neighbours and reports two price changes; pairing only the successful
snapshots, as the claim states, reports none. -/
theorem c8_counterexample :
    (ChangeDetector.getChangeHistory
        [⟨"A", 1, true, [("sale_price", PyVal.float 10)]⟩,
         ⟨"A", 2, false, [("sale_price", PyVal.float 20)]⟩,
         ⟨"A", 3, true, [("sale_price", PyVal.float 10)]⟩] "A" 0).map
        (fun p => (p.1, p.2.map Prod.fst))
      = [(3, ["sale_price"]), (2, ["sale_price"])] ∧
    ChangeDetector.getChangeHistorySuccessOnly
        [⟨"A", 1, true, [("sale_price", PyVal.float 10)]⟩,
         ⟨"A", 2, false, [("sale_price", PyVal.float 20)]⟩,
         ⟨"A", 3, true, [("sale_price", PyVal.float 10)]⟩] "A" 0
      = [] := by
  exact ⟨rfl, rfl⟩

/-- C8 (amended): `get_change_history` diffs each consecutive pair of
snapshots of the item in the window, newest first, with no filter on
the success flag — snapshots persisted by failed crawl attempts
participate in the pairing. -/
theorem c8_amended_pairs_all_snapshots :
    ∀ (history : List ChangeDetector.Snapshot) (asin : String) (since : Nat),
      ChangeDetector.getChangeHistory history asin since
        = (let rows := ChangeDetector.sortByDateDesc (history.filter
              (fun sn => sn.asin = asin && decide (since ≤ sn.crawlDate)));
           (rows.zip rows.tail).filterMap (fun p =>
              let sig := ChangeDetector.filterSignificantChanges
                (ChangeDetector.compareData (ChangeDetector.snapData p.2)
                  (ChangeDetector.snapData p.1))
              if sig.isEmpty then Option.none else some (p.1.crawlDate, sig))) := by
  intro history asin since
  unfold ChangeDetector.getChangeHistory
  rcases hrows : ChangeDetector.sortByDateDesc (history.filter
      (fun sn => sn.asin = asin && decide (since ≤ sn.crawlDate))) with _ | ⟨a, _ | ⟨b, rest⟩⟩
  · rfl
  · rfl
  · rw [if_neg (by simp)]
    exact ChangeDetector.pairDiffs_eq_zip (a :: b :: rest)

namespace BatchImporter

theorem chunksOf_flatten (n : Nat) : ∀ l : List α, (chunksOf n l).flatten = l := by
  intro l
  induction l using chunksOf.induct n with
  | case1 => rw [chunksOf]; rfl
  | case2 x xs ih =>
      rw [chunksOf]
      simp only [List.flatten_cons, List.cons_append, ih]
      rw [List.take_append_drop]

theorem foldl_batchStep (batch : List (String × TaskOutcome)) :
    ∀ acc : BatchResult,
      ((batch.foldl batchStep acc).successful + (batch.foldl batchStep acc).failed
        = acc.successful + acc.failed + batch.length) ∧
      (batch.foldl batchStep acc).results = acc.results ++ batch.map recordOutcome := by
  induction batch with
  | nil => intro acc; simp
  | cons item rest ih =>
      intro acc
      rcases item with ⟨a, o⟩
      have hrec := ih (batchStep acc (a, o))
      cases o with
      | exc m =>
          refine ⟨?_, ?_⟩
          · rw [List.foldl_cons, hrec.1]
            simp [batchStep]; omega
          · rw [List.foldl_cons, hrec.2]
            simp [batchStep, recordOutcome]
      | ok s e =>
          cases s with
          | true =>
              refine ⟨?_, ?_⟩
              · rw [List.foldl_cons, hrec.1]
                simp [batchStep]; omega
              · rw [List.foldl_cons, hrec.2]
                simp [batchStep, recordOutcome]
          | false =>
              refine ⟨?_, ?_⟩
              · rw [List.foldl_cons, hrec.1]
                simp [batchStep]; omega
              · rw [List.foldl_cons, hrec.2]
                simp [batchStep, recordOutcome]

theorem crawlBatch_spec (batch : List (String × TaskOutcome)) (maxP : Nat) :
    ((crawlBatchWithProfileReuse batch maxP).successful
        + (crawlBatchWithProfileReuse batch maxP).failed = batch.length) ∧
    (crawlBatchWithProfileReuse batch maxP).results = batch.map recordOutcome := by
  have h := foldl_batchStep batch ⟨batch.length, 0, 0, 0, []⟩
  unfold crawlBatchWithProfileReuse
  constructor
  · simpa using h.1
  · simpa using h.2

end BatchImporter

/-- C3 (confirmed): for every work list and positive batch size, the
batch run's statistics count every item exactly once
(`successful + failed = total`), and the concatenated per-batch result
records are exactly one record per item determined by that item's own
outcome — an exception becomes that item's failure record and affects
no other item of its chunk or of later chunks; the run always returns
the statistics, even when every item fails. -/
theorem c3_batch_stats_complete :
    ∀ (asinData : List (String × BatchImporter.TaskOutcome)) (bs maxP : Nat),
      0 < bs →
      ((BatchImporter.crawlAsinsOptimized asinData bs maxP).successfulCrawls
          + (BatchImporter.crawlAsinsOptimized asinData bs maxP).failedCrawls
        = asinData.length) ∧
      ((BatchImporter.crawlAsinsOptimized asinData bs maxP).batchResults.map
          (fun b => b.results)).flatten
        = asinData.map BatchImporter.recordOutcome := by
  intro asinData bs maxP _
  have hsum : ∀ cs : List (List (String × BatchImporter.TaskOutcome)),
      (((cs.map (fun c => BatchImporter.crawlBatchWithProfileReuse c maxP)).map
          (fun b => b.successful)).sum
        + ((cs.map (fun c => BatchImporter.crawlBatchWithProfileReuse c maxP)).map
          (fun b => b.failed)).sum
        = (cs.map List.length).sum) ∧
      (((cs.map (fun c => BatchImporter.crawlBatchWithProfileReuse c maxP)).map
          (fun b => b.results)).flatten
        = cs.flatten.map BatchImporter.recordOutcome) := by
    intro cs
    induction cs with
    | nil => simp
    | cons c rest ih =>
        have hc := BatchImporter.crawlBatch_spec c maxP
        refine ⟨?_, ?_⟩
        · simp only [List.map_cons, List.sum_cons]
          omega
        · simp only [List.map_cons, List.flatten_cons, List.map_append, ih.2, hc.2]
  have h := hsum (BatchImporter.chunksOf bs asinData)
  have hs : (BatchImporter.crawlAsinsOptimized asinData bs maxP).successfulCrawls
      = (((BatchImporter.chunksOf bs asinData).map
          (fun c => BatchImporter.crawlBatchWithProfileReuse c maxP)).map
            (fun b => b.successful)).sum := rfl
  have hfa : (BatchImporter.crawlAsinsOptimized asinData bs maxP).failedCrawls
      = (((BatchImporter.chunksOf bs asinData).map
          (fun c => BatchImporter.crawlBatchWithProfileReuse c maxP)).map
            (fun b => b.failed)).sum := rfl
  have hbr : (BatchImporter.crawlAsinsOptimized asinData bs maxP).batchResults
      = (BatchImporter.chunksOf bs asinData).map
          (fun c => BatchImporter.crawlBatchWithProfileReuse c maxP) := rfl
  constructor
  · rw [hs, hfa, h.1]
    have hflat := BatchImporter.chunksOf_flatten bs asinData
    calc ((BatchImporter.chunksOf bs asinData).map List.length).sum
        = (BatchImporter.chunksOf bs asinData).flatten.length := by
          rw [List.length_flatten]
      _ = asinData.length := by rw [hflat]
  · rw [hbr, h.2, BatchImporter.chunksOf_flatten bs asinData]

/-- C3 (witness): three items whose tasks all raise still yield a
completed run with 0 successes and 3 failures counted. -/
theorem c3_witness :
    0 < 2 ∧
    ((BatchImporter.crawlAsinsOptimized
        [("A", .exc "boom"), ("B", .exc "boom"), ("C", .exc "boom")] 2 50).successfulCrawls
      + (BatchImporter.crawlAsinsOptimized
        [("A", .exc "boom"), ("B", .exc "boom"), ("C", .exc "boom")] 2 50).failedCrawls
      = 3) :=
  ⟨Nat.zero_lt_succ 1,
   (c3_batch_stats_complete
      [("A", .exc "boom"), ("B", .exc "boom"), ("C", .exc "boom")] 2 50
      (Nat.zero_lt_succ 1)).1⟩

/-- C7 (counterexample): a crawl attempt whose returned data carries
`crawl_success = False` persists a failed snapshot AND advances the
Watch entry: `_crawl_single_asin_with_profile` calls
`_update_watchlist` unconditionally after `save_to_database`.  Here the
entry's last-run moves from 5 to the current time 7 although the
persisted snapshot's success flag is false. -/
theorem c7_counterexample :
    ((CrawlTask.crawlSingleAsinWithProfile "A" (.data [] false Option.none) 7
        (fun n => n + 1) ⟨some ⟨some 5, some 6⟩, [], ⟨9222, false, 0⟩⟩).2.history.map
          (fun r => r.crawlSuccess) = [false]) ∧
    (CrawlTask.crawlSingleAsinWithProfile "A" (.data [] false Option.none) 7
        (fun n => n + 1) ⟨some ⟨some 5, some 6⟩, [], ⟨9222, false, 0⟩⟩).2.watch
      = some ⟨some 7, some 8⟩ ∧
    some (⟨some 7, some 8⟩ : CrawlTask.WatchEntry) ≠ some ⟨some 5, some 6⟩ := by
  exact ⟨rfl, rfl, by decide⟩

/-- C7 (amended): the Watch entry's last-run/next-due are advanced on
every attempt that persists a snapshot — whether its success flag is
true or false; the entry (and the history) is left unchanged only when
`crawl_product` raises, in which case no snapshot is persisted either. -/
theorem c7_amended_watch_advanced_unless_exception :
    (∀ (asin : String) (flds : List (String × PyVal)) (success : Bool)
       (err : Option String) (now : Nat) (calcNext : Nat → Nat)
       (w : CrawlTask.WatchEntry) (hist : List CrawlTask.SnapshotRow)
       (prof : BatchImporter.ProfileEntry),
      (CrawlTask.crawlSingleAsinWithProfile asin (.data flds success err) now
          calcNext ⟨some w, hist, prof⟩).2.watch
        = some ⟨some now, some (calcNext now)⟩ ∧
      (CrawlTask.crawlSingleAsinWithProfile asin (.data flds success err) now
          calcNext ⟨some w, hist, prof⟩).2.history
        = hist ++ [⟨now, success, err, flds⟩]) ∧
    (∀ (asin m : String) (now : Nat) (calcNext : Nat → Nat)
       (st : CrawlTask.TaskState),
      (CrawlTask.crawlSingleAsinWithProfile asin (.exc m) now calcNext st).2 = st) :=
  ⟨fun _ _ _ _ _ _ _ _ _ => ⟨rfl, rfl⟩, fun _ _ _ _ _ => rfl⟩

namespace BatchImporter

theorem lookup_eq_none_of_not_mem_keys :
    ∀ (l : List (Nat × ProfileEntry)) (k : Nat),
      k ∉ l.map Prod.fst → l.lookup k = Option.none := by
  intro l
  induction l with
  | nil => intro k _; rfl
  | cons e rest ih =>
      intro k hk
      simp only [List.map_cons, List.mem_cons, not_or] at hk
      rw [List.lookup_cons, beq_false_of_ne hk.1]
      exact ih k hk.2

theorem exists_lookup_of_mem_keys :
    ∀ (l : List (Nat × ProfileEntry)) (k : Nat),
      k ∈ l.map Prod.fst → ∃ v, l.lookup k = some v := by
  intro l
  induction l with
  | nil => intro k hk; cases hk
  | cons e rest ih =>
      intro k hk
      by_cases h : k = e.1
      · exact ⟨e.2, by rw [List.lookup_cons, h, beq_self_eq_true]⟩
      · rcases ih k (by
          simp only [List.map_cons, List.mem_cons] at hk
          tauto) with ⟨v, hv⟩
        exact ⟨v, by rw [List.lookup_cons, beq_false_of_ne h, hv]⟩

theorem mem_of_lookup_eq_some :
    ∀ (l : List (Nat × ProfileEntry)) (k : Nat) (v : ProfileEntry),
      l.lookup k = some v → (k, v) ∈ l := by
  intro l
  induction l with
  | nil => intro k v h; cases h
  | cons e rest ih =>
      intro k v h
      rw [List.lookup_cons] at h
      split at h
      · cases h
        have hk : k = e.1 := by
          rename_i heq
          exact eq_of_beq heq
        rw [hk]
        exact List.mem_cons_self e rest
      · exact List.mem_cons_of_mem e (ih k v h)

theorem lookup_append_of_none :
    ∀ (l1 l2 : List (Nat × ProfileEntry)) (k : Nat),
      l1.lookup k = Option.none → (l1 ++ l2).lookup k = l2.lookup k := by
  intro l1
  induction l1 with
  | nil => intro l2 k _; rfl
  | cons e rest ih =>
      intro l2 k h
      rw [List.lookup_cons] at h
      rw [List.cons_append, List.lookup_cons]
      split at h
      · cases h
      · exact ih l2 k h

theorem removeKey_cons_self (k : Nat) (v : ProfileEntry)
    (rest : List (Nat × ProfileEntry)) :
    removeKey k ((k, v) :: rest) = removeKey k rest := by
  rw [removeKey, removeKey, List.filter_cons, if_neg (by simp)]

theorem removeKey_cons_ne (k : Nat) (e : Nat × ProfileEntry)
    (rest : List (Nat × ProfileEntry)) (h : e.1 ≠ k) :
    removeKey k (e :: rest) = e :: removeKey k rest := by
  rw [removeKey, removeKey, List.filter_cons, if_pos (by simpa using h)]

theorem removeKey_eq_self (k : Nat) (l : List (Nat × ProfileEntry))
    (h : k ∉ l.map Prod.fst) : removeKey k l = l := by
  rw [removeKey, List.filter_eq_self]
  intro a ha
  simp only [decide_eq_true_eq]
  intro hcontra
  exact h (List.mem_map.2 ⟨a, ha, hcontra⟩)

theorem removeKey_decomp :
    ∀ (l : List (Nat × ProfileEntry)) (k : Nat) (v : ProfileEntry),
      (l.map Prod.fst).Nodup → l.lookup k = some v →
      ∃ l1 l2, l = l1 ++ (k, v) :: l2 ∧ removeKey k l = l1 ++ l2 ∧
        k ∉ l1.map Prod.fst ∧ k ∉ l2.map Prod.fst := by
  intro l
  induction l with
  | nil => intro k v _ h; cases h
  | cons e rest ih =>
      intro k v hnd hlk
      simp only [List.map_cons, List.nodup_cons] at hnd
      rw [List.lookup_cons] at hlk
      split at hlk
      · cases hlk
        have hk : k = e.1 := by
          rename_i heq
          exact eq_of_beq heq
        refine ⟨[], rest, by rw [List.nil_append, hk], ?_, by simp, hk ▸ hnd.1⟩
        rw [List.nil_append, hk, show (e : Nat × ProfileEntry) = (e.1, e.2) from rfl,
            removeKey_cons_self]
        exact removeKey_eq_self e.1 rest hnd.1
      · have hne : e.1 ≠ k := by
          rename_i heq
          intro hcontra
          rw [hcontra] at heq
          simp at heq
        rcases ih k v hnd.2 hlk with ⟨l1, l2, hdec, hrem, h1, h2⟩
        refine ⟨e :: l1, l2, by rw [List.cons_append, hdec], ?_, ?_, h2⟩
        · rw [removeKey_cons_ne k e rest hne, hrem, List.cons_append]
        · simp only [List.map_cons, List.mem_cons, not_or]
          exact ⟨fun hc => hne hc.symm, h1⟩

end BatchImporter

namespace BatchImporter

theorem getAvailablePort_frame (s : ImporterState) (c : Nat) :
    (getAvailablePort s c).2.profilePool = s.profilePool ∧
    (getAvailablePort s c).2.portPool = s.portPool ∧
    (getAvailablePort s c).2.maxProfiles = s.maxProfiles ∧
    (getAvailablePort s c).2.clock = s.clock := by
  rw [getAvailablePort]
  split <;> exact ⟨rfl, rfl, rfl, rfl⟩

theorem getAvailablePort_spec (s : ImporterState) (c : Nat)
    (hlen : s.usedPorts.length < s.portPool.length) (hnd : s.portPool.Nodup) :
    (getAvailablePort s c).1 ∈ s.portPool ∧
    (getAvailablePort s c).1 ∉ s.usedPorts ∧
    (getAvailablePort s c).2.usedPorts
      = s.usedPorts ++ [(getAvailablePort s c).1] := by
  have hav : ¬(s.portPool.filter
      (fun p => decide (p ∉ s.usedPorts))).isEmpty = true := by
    intro hempty
    rw [List.isEmpty_iff, List.filter_eq_nil_iff] at hempty
    have hsub : s.portPool ⊆ s.usedPorts := by
      intro p hp
      have := hempty p hp
      simp only [decide_eq_true_eq, not_not] at this
      exact this
    have := (List.subperm_of_subset hnd hsub).length_le
    omega
  have hmem : (s.portPool.filter (fun p => decide (p ∉ s.usedPorts))).getD
      (c % (s.portPool.filter (fun p => decide (p ∉ s.usedPorts))).length) 0
      ∈ s.portPool.filter (fun p => decide (p ∉ s.usedPorts)) := by
    have hpos : 0 < (s.portPool.filter (fun p => decide (p ∉ s.usedPorts))).length := by
      rcases hl : s.portPool.filter (fun p => decide (p ∉ s.usedPorts)) with _ | _
      · rw [hl] at hav; simp at hav
      · simp [hl]
    have hlt := Nat.mod_lt c hpos
    rw [List.getD_eq_getElem?_getD, List.getElem?_eq_getElem hlt]
    exact List.getElem_mem hlt
  rw [getAvailablePort, if_neg hav]
  rcases List.mem_filter.1 hmem with ⟨hpool, hused⟩
  simp only [decide_eq_true_eq] at hused
  refine ⟨hpool, hused, ?_⟩
  show addPort _ s.usedPorts = _
  rw [addPort, if_neg hused]

end BatchImporter

namespace BatchImporter

def keysOf (l : List (Nat × ProfileEntry)) : List Nat := l.map Prod.fst

def portsOf (l : List (Nat × ProfileEntry)) : List Nat :=
  l.map (fun e => e.2.port)

/-- The importer's state invariant: distinct profile ids, pairwise
distinct resident ports, the held-port set is exactly the set of
resident ports, the pool respects the capacity, and the configured
constants of `__init__`. -/
def Inv (s : ImporterState) : Prop :=
  (keysOf s.profilePool).Nodup ∧
  (portsOf s.profilePool).Nodup ∧
  (∀ p, p ∈ s.usedPorts ↔ p ∈ portsOf s.profilePool) ∧
  s.usedPorts.Nodup ∧
  s.profilePool.length ≤ s.maxProfiles ∧
  s.portPool = List.range' 9222 778 ∧
  s.maxProfiles = 50

theorem inv_init : Inv initImporter := by
  refine ⟨List.nodup_nil, List.nodup_nil, ?_, List.nodup_nil, ?_, rfl, rfl⟩
  · intro p; simp [initImporter, portsOf]
  · simp [initImporter]

theorem inv_used_length (s : ImporterState) (hInv : Inv s) :
    s.usedPorts.length ≤ s.profilePool.length := by
  have hsub : s.usedPorts ⊆ portsOf s.profilePool :=
    fun p hp => (hInv.2.2.1 p).1 hp
  have h := (List.subperm_of_subset hInv.2.2.2.1 hsub).length_le
  rw [portsOf, List.length_map] at h
  exact h

theorem remove_resident_inv (s : ImporterState) (k : Nat) (v : ProfileEntry)
    (hInv : Inv s) (hlk : s.profilePool.lookup k = some v) :
    Inv (releasePort v.port { s with profilePool := removeKey k s.profilePool }) ∧
    (removeKey k s.profilePool).length + 1 = s.profilePool.length := by
  obtain ⟨hknd, hpnd, hmemiff, hund, hle, hpp, hmax⟩ := hInv
  rcases removeKey_decomp s.profilePool k v hknd hlk with ⟨l1, l2, hdec, hrem, _, _⟩
  have hports : portsOf s.profilePool = portsOf l1 ++ v.port :: portsOf l2 := by
    rw [hdec]; simp [portsOf]
  have hkeys : keysOf s.profilePool = keysOf l1 ++ k :: keysOf l2 := by
    rw [hdec]; simp [keysOf]
  have hpnd2 : (v.port :: (portsOf l1 ++ portsOf l2)).Nodup := by
    rw [← List.nodup_middle, ← hports]; exact hpnd
  have hknd2 : (k :: (keysOf l1 ++ keysOf l2)).Nodup := by
    rw [← List.nodup_middle, ← hkeys]; exact hknd
  have hportsrem : portsOf (removeKey k s.profilePool) = portsOf l1 ++ portsOf l2 := by
    rw [hrem]; simp [portsOf]
  have hkeysrem : keysOf (removeKey k s.profilePool) = keysOf l1 ++ keysOf l2 := by
    rw [hrem]; simp [keysOf]
  rcases List.nodup_cons.1 hpnd2 with ⟨hvnotin, hpnd3⟩
  refine ⟨⟨?_, ?_, ?_, ?_, ?_, hpp, hmax⟩, ?_⟩
  · show (keysOf (removeKey k s.profilePool)).Nodup
    rw [hkeysrem]; exact (List.nodup_cons.1 hknd2).2
  · show (portsOf (removeKey k s.profilePool)).Nodup
    rw [hportsrem]; exact hpnd3
  · intro p
    show p ∈ s.usedPorts.erase v.port ↔ p ∈ portsOf (removeKey k s.profilePool)
    rw [hund.mem_erase_iff, hmemiff p, hportsrem, hports]
    constructor
    · rintro ⟨hne, hp⟩
      rcases List.mem_append.1 hp with h | h
      · exact List.mem_append.2 (Or.inl h)
      · rcases List.mem_cons.1 h with h | h
        · exact absurd h hne
        · exact List.mem_append.2 (Or.inr h)
    · intro hp
      have hne : p ≠ v.port := fun hcontra => hvnotin (hcontra ▸ hp)
      refine ⟨hne, ?_⟩
      rcases List.mem_append.1 hp with h | h
      · exact List.mem_append.2 (Or.inl h)
      · exact List.mem_append.2 (Or.inr (List.mem_cons_of_mem _ h))
  · exact hund.erase v.port
  · show (removeKey k s.profilePool).length ≤ s.maxProfiles
    have : (removeKey k s.profilePool).length + 1 = s.profilePool.length := by
      rw [hrem, hdec]; simp; omega
    omega
  · rw [hrem, hdec]; simp; omega

end BatchImporter

namespace BatchImporter

theorem keysOf_removeKey_subset (k : Nat) (l : List (Nat × ProfileEntry)) :
    keysOf (removeKey k l) ⊆ keysOf l :=
  List.Sublist.subset ((List.filter_sublist l).map Prod.fst)

theorem append_fresh_inv (s1 : ImporterState) (pid c : Nat)
    (hInv : Inv s1) (hlen : s1.profilePool.length < s1.maxProfiles)
    (hpid : pid ∉ keysOf s1.profilePool) :
    Inv { (getAvailablePort s1 c).2 with
            profilePool := (getAvailablePort s1 c).2.profilePool ++
              [(pid, ⟨(getAvailablePort s1 c).1, false,
                      (getAvailablePort s1 c).2.clock⟩)],
            clock := (getAvailablePort s1 c).2.clock + 1 } := by
  obtain ⟨hknd, hpnd, hmemiff, hund, hle, hpp, hmax⟩ := hInv
  have hlen778 : s1.usedPorts.length < s1.portPool.length := by
    have h1 := inv_used_length s1 ⟨hknd, hpnd, hmemiff, hund, hle, hpp, hmax⟩
    have h2 : s1.portPool.length = 778 := by rw [hpp, List.length_range']
    omega
  have hnd778 : s1.portPool.Nodup := by rw [hpp]; exact List.nodup_range' _ _
  obtain ⟨hpmem, hpnotused, hused2⟩ := getAvailablePort_spec s1 c hlen778 hnd778
  obtain ⟨hfpool, hfpp, hfmax, _⟩ := getAvailablePort_frame s1 c
  have hpnotports : (getAvailablePort s1 c).1 ∉ portsOf s1.profilePool :=
    fun hcontra => hpnotused ((hmemiff _).2 hcontra)
  refine ⟨?_, ?_, ?_, ?_, ?_, ?_, ?_⟩
  · show (keysOf ((getAvailablePort s1 c).2.profilePool ++ _)).Nodup
    rw [hfpool, keysOf, List.map_append]
    rw [List.nodup_append]
    exact ⟨hknd, List.nodup_singleton pid,
      by intro a ha hb; simp at hb; exact hpid (hb ▸ ha)⟩
  · show (portsOf ((getAvailablePort s1 c).2.profilePool ++ _)).Nodup
    rw [hfpool, portsOf, List.map_append]
    rw [List.nodup_append]
    exact ⟨hpnd, List.nodup_singleton _,
      by intro a ha hb; simp at hb; exact hpnotports (hb ▸ ha)⟩
  · intro p
    show p ∈ (getAvailablePort s1 c).2.usedPorts ↔
      p ∈ portsOf ((getAvailablePort s1 c).2.profilePool ++ _)
    rw [hused2, hfpool, portsOf, List.map_append, List.mem_append, List.mem_append,
        hmemiff p]
    simp [portsOf]
  · show ((getAvailablePort s1 c).2.usedPorts).Nodup
    rw [hused2, List.nodup_append]
    exact ⟨hund, List.nodup_singleton _,
      by intro a ha hb; simp at hb; exact hpnotused (hb ▸ ha)⟩
  · show ((getAvailablePort s1 c).2.profilePool ++ _).length ≤
      (getAvailablePort s1 c).2.maxProfiles
    rw [hfpool, hfmax, List.length_append]
    simp only [List.length_singleton]
    omega
  · show (getAvailablePort s1 c).2.portPool = _
    rw [hfpp, hpp]
  · show (getAvailablePort s1 c).2.maxProfiles = 50
    rw [hfmax, hmax]

end BatchImporter

namespace BatchImporter

theorem getOrCreate_of_resident (s : ImporterState) (pid c : Nat) (v : ProfileEntry)
    (hlk : s.profilePool.lookup pid = some v) :
    getOrCreateProfile s pid c = (v, s) := by
  simp only [getOrCreateProfile, hlk]

theorem getOrCreate_below_capacity (s : ImporterState) (pid c : Nat)
    (hlk : s.profilePool.lookup pid = Option.none)
    (hlt : s.profilePool.length < s.maxProfiles) :
    getOrCreateProfile s pid c
      = (⟨(getAvailablePort s c).1, false, (getAvailablePort s c).2.clock⟩,
         { (getAvailablePort s c).2 with
             profilePool := (getAvailablePort s c).2.profilePool ++
               [(pid, ⟨(getAvailablePort s c).1, false,
                       (getAvailablePort s c).2.clock⟩)],
             clock := (getAvailablePort s c).2.clock + 1 }) := by
  simp only [getOrCreateProfile, hlk]
  rw [if_neg (Nat.not_le.2 hlt)]

theorem getOrCreate_at_capacity (s : ImporterState) (pid c k : Nat)
    (oldv : ProfileEntry)
    (hlk : s.profilePool.lookup pid = Option.none)
    (hcap : s.maxProfiles ≤ s.profilePool.length)
    (hmin : minKey s.profilePool = some k)
    (hold : s.profilePool.lookup k = some oldv) :
    getOrCreateProfile s pid c
      = (let s1 := releasePort oldv.port
           { s with profilePool := removeKey k s.profilePool }
         (⟨(getAvailablePort s1 c).1, false, (getAvailablePort s1 c).2.clock⟩,
          { (getAvailablePort s1 c).2 with
              profilePool := (getAvailablePort s1 c).2.profilePool ++
                [(pid, ⟨(getAvailablePort s1 c).1, false,
                        (getAvailablePort s1 c).2.clock⟩)],
              clock := (getAvailablePort s1 c).2.clock + 1 })) := by
  simp only [getOrCreateProfile, hlk]
  rw [if_pos hcap, hmin]
  simp only [hold]

end BatchImporter

namespace BatchImporter

theorem not_mem_keys_of_lookup_none (l : List (Nat × ProfileEntry)) (k : Nat)
    (h : l.lookup k = Option.none) : k ∉ l.map Prod.fst := by
  intro hmem
  rcases exists_lookup_of_mem_keys l k hmem with ⟨v, hv⟩
  rw [h] at hv
  cases hv

theorem getOrCreateProfile_inv (s : ImporterState) (pid c : Nat) (hInv : Inv s) :
    Inv (getOrCreateProfile s pid c).2 := by
  rcases hlk : s.profilePool.lookup pid with _ | v
  · have hpid : pid ∉ keysOf s.profilePool :=
      not_mem_keys_of_lookup_none s.profilePool pid hlk
    by_cases hcap : s.maxProfiles ≤ s.profilePool.length
    · have hpos : 0 < s.profilePool.length := by
        have := hInv.2.2.2.2.2.2
        omega
      obtain ⟨k, hmin⟩ : ∃ k, minKey s.profilePool = some k := by
        cases hm : minKey s.profilePool with
        | some k => exact ⟨k, rfl⟩
        | none =>
            rw [minKey, List.min?_eq_none_iff] at hm
            rw [List.map_eq_nil_iff] at hm
            rw [hm] at hpos
            cases hpos
      have hkmem : k ∈ keysOf s.profilePool :=
        List.min?_mem (fun a b => min_choice a b) hmin
      obtain ⟨oldv, hold⟩ := exists_lookup_of_mem_keys _ k hkmem
      obtain ⟨hInv1, hlen1⟩ := remove_resident_inv s k oldv hInv hold
      rw [getOrCreate_at_capacity s pid c k oldv hlk hcap hmin hold]
      have hlt1 : (releasePort oldv.port
          { s with profilePool := removeKey k s.profilePool }).profilePool.length
          < (releasePort oldv.port
              { s with profilePool := removeKey k s.profilePool }).maxProfiles := by
        show (removeKey k s.profilePool).length < s.maxProfiles
        have hle := hInv.2.2.2.2.1
        omega
      have hpid1 : pid ∉ keysOf (releasePort oldv.port
          { s with profilePool := removeKey k s.profilePool }).profilePool := by
        show pid ∉ keysOf (removeKey k s.profilePool)
        intro hmem
        exact hpid (keysOf_removeKey_subset k s.profilePool hmem)
      exact append_fresh_inv _ pid c hInv1 hlt1 hpid1
    · rw [getOrCreate_below_capacity s pid c hlk (Nat.not_le.1 hcap)]
      exact append_fresh_inv s pid c hInv (Nat.not_le.1 hcap) hpid
  · rw [getOrCreate_of_resident s pid c v hlk]
    exact hInv

theorem releaseProfile_inv (s : ImporterState) (pid : Nat) (hInv : Inv s) :
    Inv (releaseProfile s pid) := by
  rcases hlk : s.profilePool.lookup pid with _ | v
  · rw [releaseProfile, hlk]
    exact hInv
  · rw [releaseProfile, hlk]
    exact (remove_resident_inv s pid v hInv hlk).1

theorem foldl_releasePort (l : List (Nat × ProfileEntry)) :
    ∀ st : ImporterState,
      l.foldl (fun st p => releasePort p.2.port st) st
        = { st with usedPorts := l.foldl (fun u p => u.erase p.2.port) st.usedPorts } := by
  induction l with
  | nil => intro st; rfl
  | cons e rest ih =>
      intro st
      rw [List.foldl_cons, List.foldl_cons, ih]
      rfl

theorem eraseAll_eq_nil (l : List Nat) :
    ∀ used : List Nat, used.Nodup → l.Nodup → (∀ p, p ∈ used ↔ p ∈ l) →
      l.foldl (fun u p => u.erase p) used = [] := by
  induction l with
  | nil =>
      intro used _ _ hmem
      cases hu : used with
      | nil => rfl
      | cons a t =>
          exfalso
          have := (hmem a).1 (by rw [hu]; exact List.mem_cons_self a t)
          cases this
  | cons p rest ih =>
      intro used hund hlnd hmem
      rw [List.foldl_cons]
      rcases List.nodup_cons.1 hlnd with ⟨hpnotin, hrestnd⟩
      apply ih (used.erase p) (hund.erase p) hrestnd
      intro q
      rw [hund.mem_erase_iff, hmem q]
      constructor
      · rintro ⟨hne, hq⟩
        rcases List.mem_cons.1 hq with h | h
        · exact absurd h hne
        · exact h
      · intro hq
        exact ⟨fun hcontra => hpnotin (hcontra ▸ hq), List.mem_cons_of_mem p hq⟩

theorem cleanupProfiles_inv (s : ImporterState) (hInv : Inv s) :
    Inv (cleanupProfiles s) := by
  obtain ⟨hknd, hpnd, hmemiff, hund, hle, hpp, hmax⟩ := hInv
  have hfold := foldl_releasePort s.profilePool s
  have hused : s.profilePool.foldl (fun u p => u.erase p.2.port) s.usedPorts = [] := by
    have hconv : s.profilePool.foldl (fun u p => u.erase p.2.port) s.usedPorts
        = (portsOf s.profilePool).foldl (fun u p => u.erase p) s.usedPorts := by
      rw [portsOf, List.foldl_map]
    rw [hconv]
    exact eraseAll_eq_nil (portsOf s.profilePool) s.usedPorts hund hpnd hmemiff
  rw [cleanupProfiles, hfold]
  refine ⟨List.nodup_nil, List.nodup_nil, ?_, ?_, ?_, hpp, hmax⟩
  · intro p
    show p ∈ s.profilePool.foldl (fun u p => u.erase p.2.port) s.usedPorts ↔
      p ∈ portsOf []
    rw [hused]
    simp [portsOf]
  · show (s.profilePool.foldl (fun u p => u.erase p.2.port) s.usedPorts).Nodup
    rw [hused]
    exact List.nodup_nil
  · show List.length [] ≤ s.maxProfiles
    simp

theorem applyOp_inv (s : ImporterState) (op : ImporterOp) (hInv : Inv s) :
    Inv (applyOp s op) := by
  cases op with
  | getOrCreate pid c => exact getOrCreateProfile_inv s pid c hInv
  | release pid => exact releaseProfile_inv s pid hInv
  | cleanup => exact cleanupProfiles_inv s hInv

theorem runOps_inv (ops : List ImporterOp) :
    ∀ s : ImporterState, Inv s → Inv (runOps ops s) := by
  induction ops with
  | nil => intro s h; exact h
  | cons op rest ih =>
      intro s h
      rw [runOps, List.foldl_cons]
      exact ih (applyOp s op) (applyOp_inv s op h)

end BatchImporter

/-- C5 (confirmed): in every state reachable by any interleaving of
pool operations from the importer's initial state, the ports of the
resident worker sessions are pairwise distinct, and the allocator's
held-port set is exactly the set of ports bound to live sessions — an
acquired, unreleased port belongs to exactly one resident.  (The
self-healing reset never fires in a reachable state: at most 50
residents hold ports, while the pool spans 778 ports, so a free port
always exists.) -/
theorem c5_ports_unique :
    ∀ ops : List BatchImporter.ImporterOp,
      (BatchImporter.residentPorts
          (BatchImporter.runOps ops BatchImporter.initImporter)).Nodup ∧
      ∀ p, p ∈ (BatchImporter.runOps ops BatchImporter.initImporter).usedPorts ↔
        p ∈ BatchImporter.residentPorts
          (BatchImporter.runOps ops BatchImporter.initImporter) := by
  intro ops
  have h := BatchImporter.runOps_inv ops BatchImporter.initImporter
    BatchImporter.inv_init
  exact ⟨h.2.1, h.2.2.1⟩

/-- C4 (amended): the pool never holds more than the configured maximum
of 50 residents, and when a request for a non-resident profile arrives
at capacity, the resident with the SMALLEST profile id (`min(keys)`,
not the oldest-created) is evicted — its port released — before the new
profile is created with a freshly allocated port (one not currently
held, whenever a free port exists) and `delivery_set = False`. -/
theorem c4_amended_pool_bound_and_min_eviction :
    (∀ ops : List BatchImporter.ImporterOp,
      (BatchImporter.runOps ops BatchImporter.initImporter).profilePool.length ≤ 50) ∧
    (∀ (s : BatchImporter.ImporterState) (pid c k : Nat)
       (oldv : BatchImporter.ProfileEntry),
      s.profilePool.lookup pid = Option.none →
      s.maxProfiles ≤ s.profilePool.length →
      BatchImporter.minKey s.profilePool = some k →
      s.profilePool.lookup k = some oldv →
      ((BatchImporter.getOrCreateProfile s pid c).2.profilePool
          = BatchImporter.removeKey k s.profilePool ++
              [(pid, (BatchImporter.getOrCreateProfile s pid c).1)] ∧
       (BatchImporter.getOrCreateProfile s pid c).1.deliverySet = false ∧
       (BatchImporter.getOrCreateProfile s pid c).1.createdAt = s.clock ∧
       ((s.usedPorts.erase oldv.port).length < s.portPool.length →
        s.portPool.Nodup →
        (BatchImporter.getOrCreateProfile s pid c).1.port
            ∉ s.usedPorts.erase oldv.port ∧
        (BatchImporter.getOrCreateProfile s pid c).2.usedPorts
            = s.usedPorts.erase oldv.port ++
                [(BatchImporter.getOrCreateProfile s pid c).1.port]))) := by
  constructor
  · intro ops
    have h := BatchImporter.runOps_inv ops BatchImporter.initImporter
      BatchImporter.inv_init
    have h1 := h.2.2.2.2.1
    have h2 := h.2.2.2.2.2.2
    omega
  · intro s pid c k oldv hlk hcap hmin hold
    rw [BatchImporter.getOrCreate_at_capacity s pid c k oldv hlk hcap hmin hold]
    obtain ⟨hfpool, hfpp, _, hfclock⟩ := BatchImporter.getAvailablePort_frame
      (BatchImporter.releasePort oldv.port
        { s with profilePool := BatchImporter.removeKey k s.profilePool }) c
    refine ⟨?_, rfl, ?_, ?_⟩
    · show (BatchImporter.getAvailablePort _ c).2.profilePool ++ _ = _
      rw [hfpool]
      rfl
    · show (BatchImporter.getAvailablePort _ c).2.clock = s.clock
      rw [hfclock]
      rfl
    · intro hlen hnd
      obtain ⟨_, hnotused, hused⟩ := BatchImporter.getAvailablePort_spec
        (BatchImporter.releasePort oldv.port
          { s with profilePool := BatchImporter.removeKey k s.profilePool }) c
        hlen hnd
      exact ⟨hnotused, hused⟩

/-- C4 (witness): a two-resident pool at its capacity of 2, asked for
non-resident profile 7, evicts the resident with the smallest id (1),
appends profile 7 with `delivery_set = False`, the evicted port 6
leaves the held set and a fresh port joins it. -/
theorem c4_amended_witness :
    (BatchImporter.getOrCreateProfile
        ⟨[1, 2, 3], [5, 6], [(3, ⟨5, true, 0⟩), (1, ⟨6, false, 1⟩)], 2, 2⟩
        7 0).2.profilePool
      = BatchImporter.removeKey 1
          [(3, ⟨5, true, 0⟩), (1, ⟨6, false, 1⟩)] ++
          [(7, (BatchImporter.getOrCreateProfile
            ⟨[1, 2, 3], [5, 6], [(3, ⟨5, true, 0⟩), (1, ⟨6, false, 1⟩)], 2, 2⟩
            7 0).1)] ∧
    (BatchImporter.getOrCreateProfile
        ⟨[1, 2, 3], [5, 6], [(3, ⟨5, true, 0⟩), (1, ⟨6, false, 1⟩)], 2, 2⟩
        7 0).1.deliverySet = false ∧
    (BatchImporter.getOrCreateProfile
        ⟨[1, 2, 3], [5, 6], [(3, ⟨5, true, 0⟩), (1, ⟨6, false, 1⟩)], 2, 2⟩
        7 0).1.port ∉ ([5, 6] : List Nat).erase 6 := by
  have h := c4_amended_pool_bound_and_min_eviction.2
    ⟨[1, 2, 3], [5, 6], [(3, ⟨5, true, 0⟩), (1, ⟨6, false, 1⟩)], 2, 2⟩
    7 0 1 ⟨6, false, 1⟩ (by decide) (by decide) (by decide) (by decide)
  exact ⟨h.1, h.2.1, (h.2.2.2 (by decide) (by decide)).1⟩

namespace BatchImporter

/-- Shape of a pool built by consecutive fresh creations: one entry per
requested id, ports as allocated, `created_at` stamped by the running
clock. -/
def freshPool (clock : Nat) : List Nat → List Nat → List (Nat × ProfileEntry)
  | pid :: pids, port :: ports =>
      (pid, ⟨port, false, clock⟩) :: freshPool (clock + 1) pids ports
  | _, _ => []

theorem freshPool_keys : ∀ (pids ports : List Nat) (clock : Nat),
    ports.length = pids.length → keysOf (freshPool clock pids ports) = pids := by
  intro pids
  induction pids with
  | nil => intro ports clock _; cases ports <;> rfl
  | cons pid rest ih =>
      intro ports clock hlen
      cases ports with
      | nil => cases hlen
      | cons port ports' =>
          rw [freshPool, keysOf, List.map_cons]
          have := ih ports' (clock + 1) (by simpa using hlen)
          rw [keysOf] at this
          rw [this]

theorem freshPool_length (pids ports : List Nat) (clock : Nat)
    (hlen : ports.length = pids.length) :
    (freshPool clock pids ports).length = pids.length := by
  have h := freshPool_keys pids ports clock hlen
  have h2 : (keysOf (freshPool clock pids ports)).length = pids.length := by
    rw [h]
  rw [keysOf, List.length_map] at h2
  exact h2

theorem freshPool_createdAt_ge : ∀ (pids ports : List Nat) (clock : Nat),
    ∀ e ∈ freshPool clock pids ports, clock ≤ e.2.createdAt := by
  intro pids
  induction pids with
  | nil => intro ports clock e he; cases ports <;> cases he
  | cons pid rest ih =>
      intro ports clock e he
      cases ports with
      | nil => cases he
      | cons port ports' =>
          rw [freshPool] at he
          rcases List.mem_cons.1 he with h | h
          · rw [h]
          · exact Nat.le_of_succ_le (ih ports' (clock + 1) e h)

theorem not_mem_keys_removeKey (k : Nat) (l : List (Nat × ProfileEntry)) :
    k ∉ keysOf (removeKey k l) := by
  intro hmem
  rw [keysOf] at hmem
  rcases List.mem_map.1 hmem with ⟨e, he, hk⟩
  rw [removeKey] at he
  rcases List.mem_filter.1 he with ⟨_, hpred⟩
  simp only [decide_eq_true_eq] at hpred
  exact hpred hk

theorem lookup_append_some (l1 l2 : List (Nat × ProfileEntry)) (k : Nat)
    (v : ProfileEntry) (h : l1.lookup k = some v) :
    (l1 ++ l2).lookup k = some v := by
  induction l1 with
  | nil => cases h
  | cons e rest ih =>
      rw [List.lookup_cons] at h
      rw [List.cons_append, List.lookup_cons]
      split at h
      · exact h
      · exact ih h

theorem runOps_fresh_creates : ∀ (pids : List Nat) (s : ImporterState),
    (∀ p ∈ pids, s.profilePool.lookup p = Option.none) →
    pids.Nodup →
    s.profilePool.length + pids.length ≤ s.maxProfiles →
    ∃ ports : List Nat, ports.length = pids.length ∧
      (runOps (pids.map (fun p => ImporterOp.getOrCreate p 0)) s).profilePool
        = s.profilePool ++ freshPool s.clock pids ports ∧
      (runOps (pids.map (fun p => ImporterOp.getOrCreate p 0)) s).maxProfiles
        = s.maxProfiles ∧
      (runOps (pids.map (fun p => ImporterOp.getOrCreate p 0)) s).clock
        = s.clock + pids.length := by
  intro pids
  induction pids with
  | nil =>
      intro s _ _ _
      exact ⟨[], rfl, by simp [runOps, freshPool], rfl, rfl⟩
  | cons pid rest ih =>
      intro s hnone hnd hlen
      have hlk : s.profilePool.lookup pid = Option.none :=
        hnone pid (List.mem_cons_self pid rest)
      have hlt : s.profilePool.length < s.maxProfiles := by
        simp only [List.length_cons] at hlen
        omega
      have hstep := getOrCreate_below_capacity s pid 0 hlk hlt
      obtain ⟨hfpool, hfpp, hfmax, hfclock⟩ := getAvailablePort_frame s 0
      have hs2pool : (getOrCreateProfile s pid 0).2.profilePool
          = s.profilePool ++ [(pid, ⟨(getAvailablePort s 0).1, false, s.clock⟩)] := by
        rw [hstep]
        show (getAvailablePort s 0).2.profilePool ++ _ = _
        rw [hfpool, hfclock]
      have hs2clock : (getOrCreateProfile s pid 0).2.clock = s.clock + 1 := by
        rw [hstep]
        show (getAvailablePort s 0).2.clock + 1 = _
        rw [hfclock]
      have hs2max : (getOrCreateProfile s pid 0).2.maxProfiles = s.maxProfiles := by
        rw [hstep]
        show (getAvailablePort s 0).2.maxProfiles = _
        rw [hfmax]
      rcases List.nodup_cons.1 hnd with ⟨hpidnotin, hndrest⟩
      have hrestnone : ∀ p ∈ rest,
          (getOrCreateProfile s pid 0).2.profilePool.lookup p = Option.none := by
        intro p hp
        rw [hs2pool, lookup_append_of_none _ _ p (hnone p (List.mem_cons_of_mem pid hp))]
        rw [List.lookup_cons,
            beq_false_of_ne (fun hc => hpidnotin (by rw [← hc]; exact hp))]
        rfl
      have hrestlen : (getOrCreateProfile s pid 0).2.profilePool.length + rest.length
          ≤ (getOrCreateProfile s pid 0).2.maxProfiles := by
        rw [hs2pool, hs2max, List.length_append]
        simp only [List.length_cons] at hlen
        simp only [List.length_singleton]
        omega
      rcases ih (getOrCreateProfile s pid 0).2 hrestnone hndrest hrestlen with
        ⟨ports', hplen, hpool, hmax, hclock⟩
      refine ⟨(getAvailablePort s 0).1 :: ports', by simpa using hplen, ?_, ?_, ?_⟩
      · rw [List.map_cons, runOps, List.foldl_cons]
        show (runOps (rest.map (fun p => ImporterOp.getOrCreate p 0))
            (getOrCreateProfile s pid 0).2).profilePool = _
        rw [hpool, hs2pool, hs2clock, freshPool, List.append_assoc, List.singleton_append]
      · rw [List.map_cons, runOps, List.foldl_cons]
        show (runOps (rest.map (fun p => ImporterOp.getOrCreate p 0))
            (getOrCreateProfile s pid 0).2).maxProfiles = _
        rw [hmax, hs2max]
      · rw [List.map_cons, runOps, List.foldl_cons]
        show (runOps (rest.map (fun p => ImporterOp.getOrCreate p 0))
            (getOrCreateProfile s pid 0).2).clock = _
        rw [hclock, hs2clock, List.length_cons]
        omega

end BatchImporter

set_option maxRecDepth 8192 in
/-- C4 (counterexample): request profiles 100, 0, 1, …, 48 in that
order, filling the pool to its capacity of 50.  Resident 100 is the
unique oldest-created resident (`created_at = 0`, every other resident
has `created_at ≥ 1`).  The next request, for the non-resident id 99,
must — per the claim — evict the oldest-created resident 100; instead
the code evicts `min(keys) = 0` and keeps 100 resident. -/
theorem c4_counterexample :
    ∃ port : Nat,
      (BatchImporter.runOps
          ((100 :: List.range 49).map
            (fun p => BatchImporter.ImporterOp.getOrCreate p 0))
          BatchImporter.initImporter).profilePool.length = 50 ∧
      (BatchImporter.runOps
          ((100 :: List.range 49).map
            (fun p => BatchImporter.ImporterOp.getOrCreate p 0))
          BatchImporter.initImporter).profilePool.lookup 100
        = some ⟨port, false, 0⟩ ∧
      (∀ e ∈ (BatchImporter.runOps
          ((100 :: List.range 49).map
            (fun p => BatchImporter.ImporterOp.getOrCreate p 0))
          BatchImporter.initImporter).profilePool,
        e.1 ≠ 100 → 1 ≤ e.2.createdAt) ∧
      (BatchImporter.getOrCreateProfile
          (BatchImporter.runOps
            ((100 :: List.range 49).map
              (fun p => BatchImporter.ImporterOp.getOrCreate p 0))
            BatchImporter.initImporter) 99 0).2.profilePool.lookup 0
        = Option.none ∧
      (BatchImporter.getOrCreateProfile
          (BatchImporter.runOps
            ((100 :: List.range 49).map
              (fun p => BatchImporter.ImporterOp.getOrCreate p 0))
            BatchImporter.initImporter) 99 0).2.profilePool.lookup 100
        = some ⟨port, false, 0⟩ := by
  obtain ⟨ports, hplen, hpool, hmax, _⟩ :=
    BatchImporter.runOps_fresh_creates (100 :: List.range 49)
      BatchImporter.initImporter (fun p _ => rfl) (by decide) (by decide)
  set S := BatchImporter.runOps
    ((100 :: List.range 49).map
      (fun p => BatchImporter.ImporterOp.getOrCreate p 0))
    BatchImporter.initImporter with hSdef
  clear_value S
  rw [show BatchImporter.initImporter.profilePool = [] from rfl,
      List.nil_append] at hpool
  rw [show BatchImporter.initImporter.clock = 0 from rfl] at hpool
  rw [show BatchImporter.initImporter.maxProfiles = 50 from rfl] at hmax
  rcases ports with _ | ⟨port, ports'⟩
  · cases hplen
  rw [BatchImporter.freshPool] at hpool
  have hplen' : ports'.length = (List.range 49).length := by simpa using hplen
  have hkeys : BatchImporter.keysOf
      ((100, (⟨port, false, 0⟩ : BatchImporter.ProfileEntry)) ::
        BatchImporter.freshPool 1 (List.range 49) ports')
      = 100 :: List.range 49 := by
    rw [BatchImporter.keysOf, List.map_cons]
    have h := BatchImporter.freshPool_keys (List.range 49) ports' 1 hplen'
    rw [BatchImporter.keysOf] at h
    rw [h]
  have hlen50 : S.profilePool.length = 50 := by
    rw [hpool]
    have h := BatchImporter.freshPool_length (List.range 49) ports' 1 hplen'
    simp only [List.length_cons, h, List.length_range]
  have hlk99 : S.profilePool.lookup 99 = Option.none := by
    apply BatchImporter.lookup_eq_none_of_not_mem_keys
    rw [hpool]
    show 99 ∉ BatchImporter.keysOf _
    rw [hkeys]
    decide
  have hcap : S.maxProfiles ≤ S.profilePool.length := by
    rw [hmax, hlen50]
  have hmin : BatchImporter.minKey S.profilePool = some 0 := by
    rw [BatchImporter.minKey, hpool]
    show (BatchImporter.keysOf _).min? = some 0
    rw [hkeys]
    decide
  obtain ⟨oldv, hold⟩ := BatchImporter.exists_lookup_of_mem_keys
    S.profilePool 0
    (by rw [hpool]; show 0 ∈ BatchImporter.keysOf _; rw [hkeys]; decide)
  have hstep := BatchImporter.getOrCreate_at_capacity S 99 0 0 oldv
    hlk99 hcap hmin hold
  have hres : (BatchImporter.getOrCreateProfile S 99 0).2.profilePool
      = BatchImporter.removeKey 0 S.profilePool ++
          [(99, (BatchImporter.getOrCreateProfile S 99 0).1)] := by
    rw [hstep]
    show (BatchImporter.getAvailablePort _ 0).2.profilePool ++ _ = _
    rw [(BatchImporter.getAvailablePort_frame _ 0).1]
    rfl
  refine ⟨port, hlen50, ?_, ?_, ?_, ?_⟩
  · rw [hpool, List.lookup_cons, beq_self_eq_true]
  · intro e he hne
    rw [hpool] at he
    rcases List.mem_cons.1 he with h | h
    · exact absurd (by rw [h]) hne
    · exact BatchImporter.freshPool_createdAt_ge (List.range 49) ports' 1 e h
  · rw [hres]
    rw [BatchImporter.lookup_append_of_none, List.lookup_cons]
    · rfl
    · apply BatchImporter.lookup_eq_none_of_not_mem_keys
      exact BatchImporter.not_mem_keys_removeKey 0 _
  · rw [hres]
    apply BatchImporter.lookup_append_some
    rw [hpool, BatchImporter.removeKey_cons_ne _ _ _
        (show ((100 : Nat), (⟨port, false, 0⟩ : BatchImporter.ProfileEntry)).1 ≠ 0
          by norm_num)]
    rw [List.lookup_cons, beq_self_eq_true]
